import Mathlib

/-!
# eDBG breakpoint registry

A shallow embedding of `module/breakpointmanager.go` together with the parts of
`cli/repl.go` that drive it (`HandleStep`, `HandleNext`, `HandleFinish`,
`HandleUntil`, the address parsers, `CleanUp`) and of `controller/process.go`
(`Continue`).

Conventions of the embedding:

* Go pointers to freshly allocated `BreakPoint` values are never shared between
  two slots, so `[]*BreakPoint` is a `List BreakPoint` and an in-place field
  update is `List.set`.
* `uint64` / `uint32` values are natural numbers; the only arithmetic the
  manager performs on them is `offset % 4`, the REPL computes `PC + 4` and
  `PC + offset * 4` modulo `2 ^ 64`.
* Go strings are `String`; they are only split at the ASCII character `+`,
  which is the same on bytes and on characters.
* Functions and methods whose source is not among the files at hand
  (the probe handler, `utils`, `strconv`, `syscall.Kill`, `Process.ParseAddress`,
  `Process.GetAbsoluteAddress`, `controller.CreateLibrary`) are fields of an
  environment record that gives their outcomes.
* Go `int` indices are `Int`; indexing outside `0 ≤ id < len` is the runtime
  error `RuntimeError.indexOutOfRange`.
* Writes to standard output are dropped, except in `PrintBreakPoints`, whose
  whole purpose is its output.
-/

namespace eDBG

/-! ## Data model -/

/-- The part of `controller.LibraryInfo` the breakpoint manager reads. -/
structure LibraryInfo where
  LibName : String
deriving DecidableEq, Repr

/-- The `controller.Address` triple. -/
structure Address where
  LibInfo : LibraryInfo
  Offset : Nat
  Absolute : Nat
deriving DecidableEq, Repr

/-- The `module.BreakPoint` record. -/
structure BreakPoint where
  LibInfo : LibraryInfo
  Offset : Nat
  Enable : Bool
  Deleted : Bool
deriving DecidableEq, Repr

/-- The `module.BreakPointManager` record; `WorkPid` stands for `process.WorkPid`,
the only field of the process the manager reads. The probe handler is external
and appears as an environment of `SetupProbe`. -/
structure BreakPointManager where
  WorkPid : Nat
  EnableHW : Bool
  BreakPoints : List BreakPoint
  temporaryBreakPoint : Option BreakPoint
  HasTempBreak : Bool
  TempBreakTid : Nat
  TempAddressAbsolute : Nat
deriving DecidableEq, Repr

/-- Values of Go's `error` produced by the manager itself or by a collaborator. -/
inductive Error where
  | InvalidAddress (offset : Nat)
  | External (code : Nat)
deriving DecidableEq, Repr

/-- Go runtime panics the embedded code can raise. -/
inductive RuntimeError where
  | indexOutOfRange (index : Int) (len : Nat)
deriving DecidableEq, Repr

/-- The manager returned by `CreateBreakPointManager`: empty table, no temporary. -/
def CreateBreakPointManager (WorkPid : Nat) (EnableHW : Bool) : BreakPointManager :=
  { WorkPid := WorkPid
    EnableHW := EnableHW
    BreakPoints := []
    temporaryBreakPoint := none
    HasTempBreak := false
    TempBreakTid := 0
    TempAddressAbsolute := 0 }

/-! ## Registry operations -/

/-- The alignment test `offset%4 == 0`. -/
def checkOffset (offset : Nat) : Bool :=
  offset % 4 == 0

/-- The duplicate scan of `SetTempBreak`: does the loop hit its `return nil`? -/
def tempLoop (name : String) (offset : Nat) : List BreakPoint → Bool
  | [] => false
  | brk :: rest =>
    if brk.LibInfo.LibName = name ∧ offset = brk.Offset ∧ brk.Enable = true then true
    else tempLoop name offset rest

/-- The method `SetTempBreak`: the manager afterwards and the returned error. -/
def SetTempBreak (m : BreakPointManager) (address : Address) (tid : Nat) :
    BreakPointManager × Option Error :=
  let offset := address.Offset
  let libInfo := address.LibInfo
  if checkOffset offset = false then
    (m, some (Error.InvalidAddress offset))
  else if tempLoop libInfo.LibName offset m.BreakPoints then
    (m, none)
  else
    let brk : BreakPoint :=
      { LibInfo := libInfo, Offset := offset, Enable := true, Deleted := false }
    ({ m with
        TempAddressAbsolute := address.Absolute
        TempBreakTid := tid
        temporaryBreakPoint := some brk
        HasTempBreak := true }, none)

/-- The scan of `CreateBreakPoint`: `some table` when the loop reaches its
`return nil` (after the in-place update of the matching entry), `none` when the
loop runs to its end. -/
def createLoop (name : String) (offset : Nat) (enable : Bool) :
    List BreakPoint → Option (List BreakPoint)
  | [] => none
  | brk :: rest =>
    if brk.LibInfo.LibName = name ∧ offset = brk.Offset then
      if brk.Enable ≠ enable then
        some ({ brk with Enable := enable } :: rest)
      else
        some (brk :: rest)
    else
      (createLoop name offset enable rest).map (fun t => brk :: t)

/-- The method `CreateBreakPoint`: the manager afterwards and the returned error. -/
def CreateBreakPoint (m : BreakPointManager) (address : Address) (enable : Bool) :
    BreakPointManager × Option Error :=
  let offset := address.Offset
  let libInfo := address.LibInfo
  if checkOffset offset = false then
    (m, some (Error.InvalidAddress offset))
  else
    match createLoop libInfo.LibName offset enable m.BreakPoints with
    | some table => ({ m with BreakPoints := table }, none)
    | none =>
      let brk : BreakPoint :=
        { LibInfo := libInfo, Offset := offset, Enable := enable, Deleted := false }
      ({ m with BreakPoints := m.BreakPoints ++ [brk] }, none)

/-- Go slice indexing `this.BreakPoints[id]` with its bounds check. -/
def index (table : List BreakPoint) (id : Int) : Except RuntimeError BreakPoint :=
  if id < 0 then
    Except.error (RuntimeError.indexOutOfRange id table.length)
  else
    match table[id.toNat]? with
    | some brk => Except.ok brk
    | none => Except.error (RuntimeError.indexOutOfRange id table.length)

/-- The method `ChangeBreakPoint`. -/
def ChangeBreakPoint (m : BreakPointManager) (id : Int) (status : Bool) :
    Except RuntimeError BreakPointManager :=
  if id ≥ (m.BreakPoints.length : Int) then
    Except.ok m
  else
    match index m.BreakPoints id with
    | Except.error e => Except.error e
    | Except.ok brk =>
      if brk.Deleted then
        Except.ok m
      else
        Except.ok { m with BreakPoints := m.BreakPoints.set id.toNat { brk with Enable := status } }

/-- The method `DeleteBreakPoint`. -/
def DeleteBreakPoint (m : BreakPointManager) (id : Int) :
    Except RuntimeError BreakPointManager :=
  if id > (m.BreakPoints.length : Int) then
    Except.ok m
  else
    match index m.BreakPoints id with
    | Except.error e => Except.error e
    | Except.ok brk =>
      if brk.Deleted then
        Except.ok m
      else
        Except.ok { m with
          BreakPoints := m.BreakPoints.set id.toNat { brk with Enable := false, Deleted := true } }

/-! ## Listing -/

/-- Lower-case hexadecimal rendering, the verb `%x` of `fmt.Printf`. -/
def hex (n : Nat) : String :=
  String.mk (Nat.toDigits 16 n)

/-- What one iteration of the loop of `PrintBreakPoints` prints for an entry that
is not skipped: the marker, then `"%d: %s+%x\n"`. -/
def formatLine (id : Nat) (brk : BreakPoint) : String :=
  (if !brk.Enable then "[-] " else "[+] ") ++
    (toString id ++ ": " ++ brk.LibInfo.LibName ++ "+" ++ hex brk.Offset ++ "\n")

/-- The loop of `PrintBreakPoints` from index `id` on, one string per printed line. -/
def printLoop : Nat → List BreakPoint → List String
  | _, [] => []
  | id, brk :: rest =>
    if brk.Deleted then
      printLoop (id + 1) rest
    else
      formatLine id brk :: printLoop (id + 1) rest

/-- The method `PrintBreakPoints`: the lines written to standard output. -/
def PrintBreakPoints (m : BreakPointManager) : List String :=
  printLoop 0 m.BreakPoints

/-! ## Sequences of registry operations -/

/-- One call on the registry, as issued by the REPL. -/
inductive Op where
  | create (address : Address) (enable : Bool)
  | setTemp (address : Address) (tid : Nat)
  | change (id : Int) (status : Bool)
  | delete (id : Int)
deriving DecidableEq, Repr

/-- Run one call; a Go panic aborts. The error value of `CreateBreakPoint` and
`SetTempBreak` is only printed by the callers. -/
def Op.apply (m : BreakPointManager) : Op → Except RuntimeError BreakPointManager
  | Op.create address enable => Except.ok (CreateBreakPoint m address enable).1
  | Op.setTemp address tid => Except.ok (SetTempBreak m address tid).1
  | Op.change id status => ChangeBreakPoint m id status
  | Op.delete id => DeleteBreakPoint m id

/-- Run a sequence of calls from left to right. -/
def runOps (m : BreakPointManager) : List Op → Except RuntimeError BreakPointManager
  | [] => Except.ok m
  | op :: rest =>
    match op.apply m with
    | Except.error e => Except.error e
    | Except.ok m1 => runOps m1 rest

/-- Two entries name the same breakpoint: same library name and same offset. -/
def sameIdentity (a b : BreakPoint) : Prop :=
  a.LibInfo.LibName = b.LibInfo.LibName ∧ a.Offset = b.Offset

instance (a b : BreakPoint) : Decidable (sameIdentity a b) := by
  unfold sameIdentity; infer_instance

/-- The fields of an entry no registry operation except deletion rewrites. -/
def frozen (b : BreakPoint) : LibraryInfo × Nat × Bool :=
  (b.LibInfo, b.Offset, b.Deleted)

/-- The identity of an entry: library name and offset. -/
def key (b : BreakPoint) : String × Nat :=
  (b.LibInfo.LibName, b.Offset)

/-- Every slot of `l` is still a slot of `t`, with the same library and offset,
and still deleted if it was. -/
def Keeps (l t : List BreakPoint) : Prop :=
  ∀ (i : Nat) (b : BreakPoint), l[i]? = some b →
    ∃ b' : BreakPoint, t[i]? = some b' ∧ b'.LibInfo = b.LibInfo ∧ b'.Offset = b.Offset ∧
      (b.Deleted = true → b'.Deleted = true)

/-- The line the listing shows for slot `i` of `table`, if it shows one. -/
def listedLine (table : List BreakPoint) (i : Nat) : Option String :=
  match table[i]? with
  | some brk => if brk.Deleted then none else some (formatLine i brk)
  | none => none

/-- Some enabled entry of the table has the identity of `a`. -/
def enabledAt (table : List BreakPoint) (a : Address) : Prop :=
  ∃ b ∈ table, b.LibInfo.LibName = a.LibInfo.LibName ∧ b.Offset = a.Offset ∧ b.Enable = true

instance (table : List BreakPoint) (a : Address) : Decidable (enabledAt table a) := by
  unfold enabledAt; infer_instance

/-! ## Sample data -/

/-- A library of the target. -/
def libfoo : LibraryInfo := { LibName := "libfoo.so" }

/-- The address `libfoo.so+0x1234`. -/
def addrA : Address := { LibInfo := libfoo, Offset := 0x1234, Absolute := 0x7000001234 }

/-- The address `libfoo.so+0x1238`. -/
def addrB : Address := { LibInfo := libfoo, Offset := 0x1238, Absolute := 0x7000001238 }

/-- The address `libfoo.so+0x2000`. -/
def addrC : Address := { LibInfo := libfoo, Offset := 0x2000, Absolute := 0x7000002000 }

/-- A misaligned address, `libfoo.so+0x1235`. -/
def addrOdd : Address := { LibInfo := libfoo, Offset := 0x1235, Absolute := 0x7000001235 }

/-- A fresh manager for process 1000 without hardware breakpoints. -/
def emptyManager : BreakPointManager := CreateBreakPointManager 1000 false

/-- A manager whose table is `table` and which has no temporary breakpoint. -/
def managerOf (table : List BreakPoint) : BreakPointManager :=
  { emptyManager with BreakPoints := table }

/-- The entry made from an address. -/
def entry (a : Address) (enable deleted : Bool) : BreakPoint :=
  { LibInfo := a.LibInfo, Offset := a.Offset, Enable := enable, Deleted := deleted }

/-! ## Probe installation -/

/-- A call made on the external probe handler. A slice element is a pointer, so
the list handed to `SetupManager` may hold `nil` (`none`). -/
inductive ProbeCall where
  | SetupManager (brks : List (Option BreakPoint)) (ishw : Bool)
  | SetHWBreak (pid : Nat) (addr : Nat)
  | Run
deriving DecidableEq, Repr

/-- Outcomes of the external collaborators of `SetupProbe`: the probe handler
(`SetupManager`, `SetHWBreak`, `Run`) and `utils.SafeAddress`; `none` is a nil
error. -/
structure ProbeEnv where
  SetupManager : List (Option BreakPoint) → Bool → Option Error
  SafeAddress : Nat → Nat → Bool × Option Error
  SetHWBreak : Nat → Nat → Option Error
  Run : Option Error

/-- The method `UseUprobe`: the returned error and the call it makes. -/
def UseUprobe (env : ProbeEnv) (m : BreakPointManager) : Option Error × List ProbeCall :=
  let brks := m.BreakPoints.map some ++ [m.temporaryBreakPoint]
  (env.SetupManager brks false, [ProbeCall.SetupManager brks false])

/-- The tail of `SetupProbe`: `ProbeHandler.Run()` and its error. -/
def runProbes (env : ProbeEnv) (m : BreakPointManager) (calls : List ProbeCall) :
    BreakPointManager × List ProbeCall × Option Error :=
  (m, calls ++ [ProbeCall.Run], env.Run)

/-- The method `SetupProbe`: the manager afterwards, the calls made on the probe
handler in order, and the returned error. -/
def SetupProbe (env : ProbeEnv) (m : BreakPointManager) :
    BreakPointManager × List ProbeCall × Option Error :=
  if m.HasTempBreak = true then
    if m.EnableHW then
      let c1 := ProbeCall.SetupManager (m.BreakPoints.map some) true
      match env.SetupManager (m.BreakPoints.map some) true with
      | some err => (m, [c1], some err)
      | none =>
        let safe := (env.SafeAddress m.WorkPid m.TempAddressAbsolute).1
        if !safe then
          let c2 := ProbeCall.SetHWBreak m.WorkPid m.TempAddressAbsolute
          match env.SetHWBreak m.WorkPid m.TempAddressAbsolute with
          | some _ =>
            match UseUprobe env m with
            | (some err, cs) => (m, [c1, c2] ++ cs, some err)
            | (none, cs) => runProbes env { m with HasTempBreak := false } ([c1, c2] ++ cs)
          | none => runProbes env { m with HasTempBreak := false } [c1, c2]
        else
          match UseUprobe env m with
          | (some err, cs) => (m, [c1] ++ cs, some err)
          | (none, cs) => runProbes env { m with HasTempBreak := false } ([c1] ++ cs)
    else
      match UseUprobe env m with
      | (some err, cs) => (m, cs, some err)
      | (none, cs) => runProbes env { m with HasTempBreak := false } cs
  else
    let m1 := { m with TempBreakTid := 0 }
    let c1 := ProbeCall.SetupManager (m1.BreakPoints.map some) false
    match env.SetupManager (m1.BreakPoints.map some) false with
    | some err => (m1, [c1], some err)
    | none => runProbes env m1 [c1]

/-- The breakpoint lists handed to `SetupManager` by a sequence of calls. -/
def handedLists : List ProbeCall → List (List (Option BreakPoint))
  | [] => []
  | ProbeCall.SetupManager brks _ :: rest => brks :: handedLists rest
  | _ :: rest => handedLists rest

/-! ## Stepping commands of the REPL -/

/-- The registers of `ProcessContext` the stepping commands read. -/
structure ProcessContext where
  PC : Nat
  LR : Nat
deriving DecidableEq, Repr

/-- The fields of `controller.Process` the stepping commands read. -/
structure Process where
  WorkPid : Nat
  WorkTid : Nat
  Context : ProcessContext
deriving DecidableEq, Repr

/-- The fields of `cli.Client` the stepping commands use. -/
structure Client where
  Process : Process
  BrkManager : BreakPointManager
deriving DecidableEq, Repr

/-- Outcomes of the external collaborators of the stepping commands:
`utils.PredictNextPC` (a value and an error), `utils.GetTarget` and
`Process.ParseAddress`. -/
structure StepEnv where
  PredictNextPC : Nat → ProcessContext → Bool → Nat × Option Error
  GetTarget : Nat → ProcessContext → Except Error Nat
  ParseAddress : Nat → Except Error Address

/-- The sentinel `0xDEADBEEF` of the predictor. -/
def DEADBEEF : Nat := 0xDEADBEEF

/-- The common body of `HandleStep` (`step = true`) and `HandleNext`
(`step = false`), which differ only in the flag passed to the predictor.
The error of `SetTempBreak` is discarded, as in the source. -/
def stepBody (env : StepEnv) (c : Client) (step : Bool) : Bool × Client :=
  let (NextPC, err) := env.PredictNextPC c.Process.WorkPid c.Process.Context step
  if NextPC = DEADBEEF then
    match env.GetTarget c.Process.WorkPid c.Process.Context with
    | Except.error _ => (false, c)
    | Except.ok target =>
      match env.ParseAddress ((c.Process.Context.PC + 4) % 2 ^ 64) with
      | Except.error _ => (false, c)
      | Except.ok address =>
        let c1 := { c with BrkManager := (SetTempBreak c.BrkManager address c.Process.WorkTid).1 }
        match env.ParseAddress target with
        | Except.error _ => (false, c1)
        | Except.ok address2 =>
          (true, { c1 with
            BrkManager := (SetTempBreak c1.BrkManager address2 c1.Process.WorkTid).1 })
  else
    match err with
    | some _ => (false, c)
    | none =>
      match env.ParseAddress NextPC with
      | Except.error _ => (false, c)
      | Except.ok address =>
        (true, { c with BrkManager := (SetTempBreak c.BrkManager address c.Process.WorkTid).1 })

/-- The command handler `HandleStep`. -/
def HandleStep (env : StepEnv) (c : Client) : Bool × Client :=
  stepBody env c true

/-- The command handler `HandleNext`. -/
def HandleNext (env : StepEnv) (c : Client) : Bool × Client :=
  stepBody env c false

/-- The enabled breakpoints of a list handed to `SetupManager`. -/
def enabledOf (brks : List (Option BreakPoint)) : List BreakPoint :=
  (brks.filterMap id).filter (fun b => b.Enable)

/-- A probe handler and a `SafeAddress` that never fail and report every
address as safe for uprobes. -/
def okProbes : ProbeEnv :=
  { SetupManager := fun _ _ => none
    SafeAddress := fun _ _ => (true, none)
    SetHWBreak := fun _ _ => none
    Run := none }

/-- A probe handler that never fails, with `SafeAddress` reporting every
address as not safe, so that hardware breakpoints are used when enabled. -/
def hwProbes : ProbeEnv :=
  { SetupManager := fun _ _ => none
    SafeAddress := fun _ _ => (false, none)
    SetHWBreak := fun _ _ => none
    Run := none }

/-- A stop at `libfoo.so+0x1234` in thread 7 of process 1000. -/
def stoppedProcess : Process :=
  { WorkPid := 1000, WorkTid := 7, Context := { PC := 0x7000001234, LR := 0x7000003000 } }

/-- Collaborators at a conditional branch the predictor cannot decide: the
sentinel is returned, the branch target is `libfoo.so+0x2000`, and both
`PC + 4` and the target resolve. -/
def branchEnv : StepEnv :=
  { PredictNextPC := fun _ _ _ => (DEADBEEF, none)
    GetTarget := fun _ _ => Except.ok 0x7000002000
    ParseAddress := fun a =>
      if a = 0x7000001238 then Except.ok addrB
      else if a = 0x7000002000 then Except.ok addrC
      else Except.error (Error.External 1) }

/-- The client stopped at the branch, with an empty breakpoint table. -/
def stoppedClient : Client :=
  { Process := stoppedProcess, BrkManager := emptyManager }

/-! ## The `finish` and `until` commands and address parsing -/

/-- The command handler `HandleFinish`; of its collaborators it calls
`Process.ParseAddress` only. -/
def HandleFinish (env : StepEnv) (c : Client) : Bool × Client :=
  match env.ParseAddress c.Process.Context.LR with
  | Except.error _ => (false, c)
  | Except.ok address =>
    (true, { c with BrkManager := (SetTempBreak c.BrkManager address c.Process.WorkTid).1 })

/-- An error returned by the address parsers: either wrapped by
`fmt.Errorf("Bad address: %v", err)` or handed on as it came. -/
inductive ParseError where
  | BadAddress (cause : Error)
  | Plain (err : Error)
deriving DecidableEq, Repr

/-- Outcomes of the external collaborators of the address parsers:
`utils.GetExprValue`, `strconv.ParseUint(s, 0, 64)`, `controller.CreateLibrary`,
`Process.GetAbsoluteAddress` and `Process.ParseAddress`. Numbers are below
`2 ^ 64`. -/
structure ParseEnv where
  GetExprValue : String → ProcessContext → Except Error Nat
  ParseUint : String → Except Error Nat
  CreateLibrary : Process → String → Except Error LibraryInfo
  GetAbsoluteAddress : Address → Except Error Nat
  ParseAddress : Nat → Except Error Address

/-- Modelled from the spec: `controller.NewAddress`, whose source is not part of
the files at hand; a library-relative address `(lib, offset, 0)` whose absolute
part is not resolved yet. -/
def NewAddress (libInfo : LibraryInfo) (offset : Nat) : Address :=
  { LibInfo := libInfo, Offset := offset, Absolute := 0 }

/-- The test `strings.Contains(arg, "+")`. -/
def containsPlus (arg : String) : Bool :=
  arg.data.contains '+'

/-- The position of the last `c` in a list of characters, `-1` when there is
none, as `strings.LastIndex` returns it. Splitting at an ASCII character is the
same on bytes and on characters. -/
def lastIndexIn (c : Char) : List Char → Int
  | [] => -1
  | x :: rest =>
    if lastIndexIn c rest ≥ 0 then lastIndexIn c rest + 1
    else if x = c then 0
    else -1

/-- The call `strings.LastIndex(arg, "+")`. -/
def LastIndex (arg : String) : Int :=
  lastIndexIn '+' arg.data

/-- The slice `arg[:lastIndex]`. -/
def sliceBefore (arg : String) (lastIndex : Int) : String :=
  String.mk (arg.data.take lastIndex.toNat)

/-- The slice `arg[lastIndex+1:]`. -/
def sliceAfter (arg : String) (lastIndex : Int) : String :=
  String.mk (arg.data.drop (lastIndex.toNat + 1))

/-- The threshold `0x5000000000` above which a number is an absolute address. -/
def absoluteThreshold : Nat := 0x5000000000

/-- The method `ParseUserAddressToAbsolute`; `Library` is `this.Library`. -/
def ParseUserAddressToAbsolute (env : ParseEnv) (Library : LibraryInfo) (p : Process)
    (arg : String) : Except ParseError Nat :=
  match env.GetExprValue arg p.Context with
  | Except.error err =>
    if containsPlus arg then
      let lastIndex := LastIndex arg
      let libName := sliceBefore arg lastIndex
      let offset_str := sliceAfter arg lastIndex
      match env.ParseUint offset_str with
      | Except.error e => Except.error (ParseError.BadAddress e)
      | Except.ok offset =>
        if libName = "$" then
          Except.ok ((p.Context.PC + (offset * 4) % 2 ^ 64) % 2 ^ 64)
        else
          match env.CreateLibrary p libName with
          | Except.error e => Except.error (ParseError.Plain e)
          | Except.ok libInfo =>
            match env.GetAbsoluteAddress (NewAddress libInfo offset) with
            | Except.error e => Except.error (ParseError.Plain e)
            | Except.ok absolute => Except.ok absolute
    else
      Except.error (ParseError.Plain err)
  | Except.ok offset =>
    if offset > absoluteThreshold then
      Except.ok offset
    else
      match env.GetAbsoluteAddress (NewAddress Library offset) with
      | Except.error e => Except.error (ParseError.Plain e)
      | Except.ok absolute => Except.ok absolute

/-- The method `ParseUserAddress`; `Library` is `this.Library`. -/
def ParseUserAddress (env : ParseEnv) (Library : LibraryInfo) (p : Process)
    (arg : String) : Except ParseError Address :=
  match env.GetExprValue arg p.Context with
  | Except.error err =>
    if containsPlus arg then
      let lastIndex := LastIndex arg
      let libName := sliceBefore arg lastIndex
      let offset_str := sliceAfter arg lastIndex
      match env.ParseUint offset_str with
      | Except.error e => Except.error (ParseError.BadAddress e)
      | Except.ok offset =>
        if libName = "$" then
          match env.ParseAddress ((p.Context.PC + (offset * 4) % 2 ^ 64) % 2 ^ 64) with
          | Except.error e => Except.error (ParseError.BadAddress e)
          | Except.ok address => Except.ok address
        else
          match env.CreateLibrary p libName with
          | Except.error e => Except.error (ParseError.Plain e)
          | Except.ok libInfo => Except.ok (NewAddress libInfo offset)
    else
      Except.error (ParseError.BadAddress err)
  | Except.ok offset =>
    if offset > absoluteThreshold then
      match env.ParseAddress offset with
      | Except.error e => Except.error (ParseError.BadAddress e)
      | Except.ok address => Except.ok address
    else
      Except.ok (NewAddress Library offset)

/-- The command handler `HandleUntil`. Both arms of the test on the error of
`SetTempBreak` only print, and the method then returns `true`. -/
def HandleUntil (env : ParseEnv) (Library : LibraryInfo) (c : Client)
    (args : List String) : Bool × Client :=
  match args with
  | [] => (false, c)
  | arg :: _ =>
    match ParseUserAddress env Library c.Process arg with
    | Except.error _ => (false, c)
    | Except.ok address =>
      if address.Absolute = 0 then
        (false, c)
      else
        match SetTempBreak c.BrkManager address c.Process.WorkTid with
        | (m1, some _) => (true, { c with BrkManager := m1 })
        | (m1, none) => (true, { c with BrkManager := m1 })

/-- The `until` case of `executeCommand`, `HandleUntil(args) && HandleContinue()`,
seen through the calls it makes on the probe handler: `HandleContinue` starts
with `SetupProbe` and is reached only when `HandleUntil` returns `true`. -/
def untilProbeCalls (penv : ProbeEnv) (env : ParseEnv) (Library : LibraryInfo) (c : Client)
    (args : List String) : List ProbeCall :=
  if (HandleUntil env Library c args).1 then
    (SetupProbe penv (HandleUntil env Library c args).2.BrkManager).2.1
  else
    []

/-! ## Resuming the target -/

/-- The error numbers of `syscall.Kill` the code tells apart. -/
inductive Errno where
  | ESRCH
  | EPERM
  | EINVAL
deriving DecidableEq, Repr

/-- The errors `Process.Continue` builds. -/
inductive SignalError where
  | NoSuchProcess (pid : Nat)
  | ContinueError (pid : Nat)
deriving DecidableEq, Repr

/-- The fields of `controller.Process` that `Continue` writes. -/
structure PidState where
  PidList : List Nat
  StoppedPid : List Nat
deriving DecidableEq, Repr

/-- The loop of `Process.Continue`: the PIDs on which `SIGCONT` was attempted, in
order, and the error the loop returned with, if it did. -/
def continueLoop (kill : Nat → Option Errno) : List Nat → List Nat × Option SignalError
  | [] => ([], none)
  | pid :: rest =>
    match kill pid with
    | some err =>
      if err = Errno.ESRCH then
        ([pid], some (SignalError.NoSuchProcess pid))
      else
        ([pid], some (SignalError.ContinueError pid))
    | none => (pid :: (continueLoop kill rest).1, (continueLoop kill rest).2)

/-- The method `Process.Continue`. `scan` is the PID list `UpdatePidList` has
just stored, `kill pid` the outcome of `syscall.Kill(pid, SIGCONT)`. The result
is the state afterwards, the PIDs signalled, and the returned error. -/
def Continue (scan : List Nat) (kill : Nat → Option Errno) (p : PidState) :
    PidState × List Nat × Option SignalError :=
  let p1 : PidState := { p with PidList := scan }
  match continueLoop kill p1.PidList with
  | (attempted, some err) => (p1, attempted, some err)
  | (attempted, none) => ({ p1 with StoppedPid := [] }, attempted, none)

/-- What `Client.CleanUp` does, in order. -/
inductive CleanUpStep where
  | SIGCONT (pid : Nat)
  | StopProbes
  | SIGTERMSelf
deriving DecidableEq, Repr

/-- The method `Client.CleanUp`: the fan-out of `Process.Continue`, whose error is
dropped, then `BrkManager.Stop()`, then `SIGTERM` to the debugger itself. -/
def CleanUp (scan : List Nat) (kill : Nat → Option Errno) (p : PidState) : List CleanUpStep :=
  (Continue scan kill p).2.1.map CleanUpStep.SIGCONT ++
    [CleanUpStep.StopProbes, CleanUpStep.SIGTERMSelf]

/-! ## More sample data -/

/-- Collaborators of the address parsers for a session in `libfoo.so`: numbers
in hexadecimal notation evaluate, `$+1` and `libfoo.so+4660` do not, and the
absolute addresses of the sample addresses resolve. -/
def parseEnv : ParseEnv :=
  { GetExprValue := fun s _ =>
      if s = "0x5000000000" then Except.ok 0x5000000000
      else if s = "0x7000001235" then Except.ok 0x7000001235
      else if s = "0x7000001238" then Except.ok 0x7000001238
      else Except.error (Error.External 2)
    ParseUint := fun s =>
      if s = "1" then Except.ok 1
      else if s = "4660" then Except.ok 4660
      else Except.error (Error.External 3)
    CreateLibrary := fun _ name => Except.ok { LibName := name }
    GetAbsoluteAddress := fun a => Except.ok (0x7000000000 + a.Offset)
    ParseAddress := fun a =>
      if a = 0x7000001234 then Except.ok addrA
      else if a = 0x7000001235 then Except.ok addrOdd
      else if a = 0x7000001238 then Except.ok addrB
      else if a = 0x7000002000 then Except.ok addrC
      else Except.error (Error.External 1) }

/-- Collaborators of `finish` when `LR` resolves to `libfoo.so+0x1234`. -/
def finishEnv : StepEnv :=
  { PredictNextPC := fun _ _ _ => (0, none)
    GetTarget := fun _ _ => Except.error (Error.External 4)
    ParseAddress := fun a =>
      if a = 0x7000003000 then Except.ok addrA else Except.error (Error.External 1) }

/-- Signal delivery that fails with `ESRCH` for PID 100 and succeeds otherwise. -/
def killGone100 (pid : Nat) : Option Errno :=
  if pid = 100 then some Errno.ESRCH else none

/-- Signal delivery that always succeeds. -/
def killOk (_pid : Nat) : Option Errno :=
  none

/-- A probe handler whose `SetHWBreak` fails, with `SafeAddress` reporting every
address as not safe: the uprobe fallback is taken. -/
def fallbackProbes : ProbeEnv :=
  { SetupManager := fun _ _ => none
    SafeAddress := fun _ _ => (false, none)
    SetHWBreak := fun _ _ => some (Error.External 5)
    Run := none }

/-- A manager with hardware breakpoints on, one enabled entry in the table and a
temporary breakpoint pending at `libfoo.so+0x1238` for thread 7. -/
def pendingHW : BreakPointManager :=
  (SetTempBreak { managerOf [entry addrA true false] with EnableHW := true } addrB 7).1

/-! ## Basic facts about the table scans -/

theorem set_map_of_eq {β : Type} (f : BreakPoint → β) (l : List BreakPoint) (i : Nat)
    (b b' : BreakPoint) (hb : l[i]? = some b) (hf : f b' = f b) :
    (l.set i b').map f = l.map f := by
  induction l generalizing i with
  | nil => simp
  | cons a t ih =>
    cases i with
    | zero =>
      simp at hb
      subst hb
      simp [hf]
    | succ n =>
      simp at hb
      simp [ih n hb]

theorem createLoop_some_map (name : String) (offset : Nat) (enable : Bool) :
    ∀ (l t : List BreakPoint), createLoop name offset enable l = some t →
      t.map frozen = l.map frozen := by
  intro l
  induction l with
  | nil => intro t h; simp [createLoop] at h
  | cons a rest ih =>
    intro t h
    simp only [createLoop] at h
    split at h
    · split at h
      · cases h; simp [frozen]
      · cases h; rfl
    · cases hr : createLoop name offset enable rest with
      | none => simp [hr] at h
      | some t1 =>
        simp [hr] at h
        subst h
        simp [ih t1 hr]

theorem createLoop_none_iff (name : String) (offset : Nat) (enable : Bool) :
    ∀ (l : List BreakPoint), createLoop name offset enable l = none ↔
      ∀ b ∈ l, ¬ (b.LibInfo.LibName = name ∧ offset = b.Offset) := by
  intro l
  induction l with
  | nil => simp [createLoop]
  | cons a rest ih =>
    simp only [createLoop]
    split
    · rename_i hm
      constructor
      · intro h; split at h <;> cases h
      · intro h; exact absurd hm (h a (List.mem_cons_self _ _))
    · rename_i hm
      rw [Option.map_eq_none', ih]
      constructor
      · intro h b hb
        rcases List.mem_cons.1 hb with rfl | hb
        · exact hm
        · exact h b hb
      · intro h b hb
        exact h b (List.mem_cons_of_mem _ hb)

/-! ## Slots survive every operation -/

theorem keeps_refl (l : List BreakPoint) : Keeps l l :=
  fun _ b hb => ⟨b, hb, rfl, rfl, id⟩

theorem keeps_length {l t : List BreakPoint} (h : Keeps l t) : l.length ≤ t.length := by
  by_contra hlt
  have hlt : t.length < l.length := Nat.lt_of_not_le hlt
  obtain ⟨b', hb', -⟩ := h t.length l[t.length] (List.getElem?_eq_getElem hlt)
  rw [List.getElem?_eq_none (Nat.le_refl _)] at hb'
  cases hb'

theorem keeps_of_map_frozen {l t : List BreakPoint} (h : t.map frozen = l.map frozen) :
    Keeps l t := by
  intro i b hb
  have hi : (t.map frozen)[i]? = (l.map frozen)[i]? := by rw [h]
  rw [List.getElem?_map, List.getElem?_map, hb] at hi
  obtain ⟨b', hb', hf⟩ := Option.map_eq_some'.1 hi
  simp only [frozen, Prod.mk.injEq] at hf
  exact ⟨b', hb', hf.1, hf.2.1, fun hd => by rw [hf.2.2]; exact hd⟩

theorem keeps_append (l e : List BreakPoint) : Keeps l (l ++ e) := by
  intro i b hb
  have hi : i < l.length := (List.getElem?_eq_some.1 hb).1
  exact ⟨b, by rw [List.getElem?_append_left hi]; exact hb, rfl, rfl, id⟩

theorem keeps_set {l : List BreakPoint} {k : Nat} {b b' : BreakPoint} (hk : l[k]? = some b)
    (h1 : b'.LibInfo = b.LibInfo) (h2 : b'.Offset = b.Offset)
    (h3 : b.Deleted = true → b'.Deleted = true) : Keeps l (l.set k b') := by
  intro i c hc
  by_cases hik : k = i
  · subst hik
    rw [hk] at hc
    cases hc
    have hlt : k < l.length := (List.getElem?_eq_some.1 hk).1
    exact ⟨b', List.getElem?_set_self hlt, h1, h2, h3⟩
  · exact ⟨c, by rw [List.getElem?_set_ne hik]; exact hc, rfl, rfl, id⟩

theorem index_ok {l : List BreakPoint} {id : Int} {b : BreakPoint}
    (h : index l id = Except.ok b) : 0 ≤ id ∧ l[id.toNat]? = some b := by
  unfold index at h
  split at h
  · cases h
  · rename_i hneg
    split at h
    · rename_i brk hb
      cases h
      exact ⟨Int.not_lt.1 hneg, hb⟩
    · cases h

theorem SetTempBreak_table (m : BreakPointManager) (a : Address) (tid : Nat) :
    (SetTempBreak m a tid).1.BreakPoints = m.BreakPoints := by
  unfold SetTempBreak
  dsimp only
  split
  · rfl
  · split <;> rfl

theorem CreateBreakPoint_keeps (m : BreakPointManager) (a : Address) (enable : Bool) :
    Keeps m.BreakPoints (CreateBreakPoint m a enable).1.BreakPoints := by
  unfold CreateBreakPoint
  dsimp only
  split
  · exact keeps_refl _
  · split
    · rename_i t ht
      exact keeps_of_map_frozen (createLoop_some_map _ _ _ _ _ ht)
    · exact keeps_append _ _

theorem ChangeBreakPoint_keeps {m m' : BreakPointManager} {id : Int} {status : Bool}
    (h : ChangeBreakPoint m id status = Except.ok m') : Keeps m.BreakPoints m'.BreakPoints := by
  unfold ChangeBreakPoint at h
  split at h
  · cases h; exact keeps_refl _
  · split at h
    · cases h
    · rename_i brk hb
      split at h
      · cases h; exact keeps_refl _
      · cases h
        exact keeps_set (index_ok hb).2 rfl rfl (fun hd => hd)

theorem DeleteBreakPoint_keeps {m m' : BreakPointManager} {id : Int}
    (h : DeleteBreakPoint m id = Except.ok m') : Keeps m.BreakPoints m'.BreakPoints := by
  unfold DeleteBreakPoint at h
  split at h
  · cases h; exact keeps_refl _
  · split at h
    · cases h
    · rename_i brk hb
      split at h
      · cases h; exact keeps_refl _
      · cases h
        exact keeps_set (index_ok hb).2 rfl rfl (fun _ => rfl)

theorem apply_keeps {m m' : BreakPointManager} {op : Op} (h : op.apply m = Except.ok m') :
    Keeps m.BreakPoints m'.BreakPoints := by
  cases op with
  | create a e =>
    simp only [Op.apply, Except.ok.injEq] at h
    subst h
    exact CreateBreakPoint_keeps m a e
  | setTemp a tid =>
    simp only [Op.apply, Except.ok.injEq] at h
    subst h
    rw [SetTempBreak_table]
    exact keeps_refl _
  | change id status => exact ChangeBreakPoint_keeps h
  | delete id => exact DeleteBreakPoint_keeps h

/-! ## Identities in the table -/

theorem map_key_of_map_frozen {l t : List BreakPoint} (h : t.map frozen = l.map frozen) :
    t.map key = l.map key := by
  have hk : ∀ s : List BreakPoint,
      s.map key = (s.map frozen).map (fun p => (p.1.LibName, p.2.1)) := by
    intro s
    rw [List.map_map]
    rfl
  rw [hk t, hk l, h]

theorem CreateBreakPoint_nodup (m : BreakPointManager) (a : Address) (enable : Bool)
    (h : (m.BreakPoints.map key).Nodup) :
    ((CreateBreakPoint m a enable).1.BreakPoints.map key).Nodup := by
  unfold CreateBreakPoint
  dsimp only
  split
  · exact h
  · split
    · rename_i t ht
      rw [map_key_of_map_frozen (createLoop_some_map _ _ _ _ _ ht)]
      exact h
    · rename_i hn
      have hno := (createLoop_none_iff _ _ _ _).1 hn
      rw [List.map_append, List.nodup_append]
      refine ⟨h, by simp, ?_⟩
      intro k hk1 hk2
      simp only [List.map_cons, List.map_nil, List.mem_singleton] at hk2
      obtain ⟨b, hb, hbk⟩ := List.mem_map.1 hk1
      apply hno b hb
      rw [hk2] at hbk
      simp only [key, Prod.mk.injEq] at hbk
      exact ⟨hbk.1, hbk.2.symm⟩

theorem ChangeBreakPoint_map_key {m m' : BreakPointManager} {id : Int} {status : Bool}
    (h : ChangeBreakPoint m id status = Except.ok m') :
    m'.BreakPoints.map key = m.BreakPoints.map key := by
  unfold ChangeBreakPoint at h
  split at h
  · cases h; rfl
  · split at h
    · cases h
    · rename_i brk hb
      split at h
      · cases h; rfl
      · cases h
        exact set_map_of_eq key _ _ brk _ (index_ok hb).2 rfl

theorem DeleteBreakPoint_map_key {m m' : BreakPointManager} {id : Int}
    (h : DeleteBreakPoint m id = Except.ok m') :
    m'.BreakPoints.map key = m.BreakPoints.map key := by
  unfold DeleteBreakPoint at h
  split at h
  · cases h; rfl
  · split at h
    · cases h
    · rename_i brk hb
      split at h
      · cases h; rfl
      · cases h
        exact set_map_of_eq key _ _ brk _ (index_ok hb).2 rfl

theorem apply_nodup {m m' : BreakPointManager} {op : Op} (h : op.apply m = Except.ok m')
    (hm : (m.BreakPoints.map key).Nodup) : (m'.BreakPoints.map key).Nodup := by
  cases op with
  | create a e =>
    simp only [Op.apply, Except.ok.injEq] at h
    subst h
    exact CreateBreakPoint_nodup m a e hm
  | setTemp a tid =>
    simp only [Op.apply, Except.ok.injEq] at h
    subst h
    rw [SetTempBreak_table]
    exact hm
  | change id status => rw [ChangeBreakPoint_map_key h]; exact hm
  | delete id => rw [DeleteBreakPoint_map_key h]; exact hm

theorem runOps_nodup (ops : List Op) :
    ∀ (m m' : BreakPointManager), runOps m ops = Except.ok m' →
      (m.BreakPoints.map key).Nodup → (m'.BreakPoints.map key).Nodup := by
  induction ops with
  | nil =>
    intro m m' h hm
    simp only [runOps, Except.ok.injEq] at h
    subst h
    exact hm
  | cons op rest ih =>
    intro m m' h hm
    simp only [runOps] at h
    split at h
    · cases h
    · rename_i m1 h1
      exact ih m1 m' h (apply_nodup h1 hm)

theorem nodup_key_index {l : List BreakPoint} (h : (l.map key).Nodup) {i j : Nat}
    {bi bj : BreakPoint} (hi : l[i]? = some bi) (hj : l[j]? = some bj) (hij : i ≠ j) :
    ¬ sameIdentity bi bj := by
  intro hs
  have hki : (l.map key)[i]? = some (key bi) := by rw [List.getElem?_map, hi]; rfl
  have hkj : (l.map key)[j]? = some (key bj) := by rw [List.getElem?_map, hj]; rfl
  have hkey : key bi = key bj := by
    simp only [key, Prod.mk.injEq]
    exact hs
  have hlen : ∀ {k : Nat} {b : BreakPoint}, l[k]? = some b → k < (l.map key).length := by
    intro k b hk
    rw [List.length_map]
    exact (List.getElem?_eq_some.1 hk).1
  rcases Nat.lt_or_gt_of_ne hij with hlt | hgt
  · exact (List.nodup_iff_getElem?_ne_getElem?.1 h) i j hlt (hlen hj) (by rw [hki, hkj, hkey])
  · exact (List.nodup_iff_getElem?_ne_getElem?.1 h) j i hgt (hlen hi) (by rw [hki, hkj, hkey])

/-! ## Claims about the registry operations -/

/-- C1 (defect in the code): after `break libfoo.so+0x1234` and `delete 0` the
table holds one deleted entry; adding the same address again returns no error
but appends nothing: the scan of `CreateBreakPoint` matches the deleted entry
and switches its `Enable` back on, so the table keeps length one and its only
entry is both deleted and enabled. -/
theorem CreateBreakPoint_matches_deleted_entry :
    runOps emptyManager [Op.create addrA true, Op.delete 0] =
        Except.ok (managerOf [entry addrA false true]) ∧
      CreateBreakPoint (managerOf [entry addrA false true]) addrA true =
        (managerOf [entry addrA true true], none) ∧
      (CreateBreakPoint (managerOf [entry addrA false true]) addrA true).1.BreakPoints.length = 1 :=
  ⟨rfl, rfl, rfl⟩

/-- C2: in every state reached from the empty table by calls of
`CreateBreakPoint`, `SetTempBreak`, `ChangeBreakPoint` and `DeleteBreakPoint`,
two distinct slots that are both not deleted never carry the same
(library name, offset). -/
theorem live_identities_unique (WorkPid : Nat) (EnableHW : Bool) (ops : List Op)
    (m : BreakPointManager)
    (h : runOps (CreateBreakPointManager WorkPid EnableHW) ops = Except.ok m)
    (i j : Nat) (bi bj : BreakPoint)
    (hi : m.BreakPoints[i]? = some bi) (hj : m.BreakPoints[j]? = some bj) (hij : i ≠ j)
    (_hdi : bi.Deleted = false) (_hdj : bj.Deleted = false) :
    ¬ sameIdentity bi bj :=
  nodup_key_index
    (runOps_nodup ops _ m h (by simp [CreateBreakPointManager])) hi hj hij

/-- A run with two additions, a deletion and a third addition, at which C2 is applied to slots 1 and 2. -/
theorem live_identities_unique_witness :
    runOps (CreateBreakPointManager 1000 false)
        [Op.create addrA true, Op.create addrB true, Op.delete 0, Op.create addrC false] =
        Except.ok (managerOf [entry addrA false true, entry addrB true false,
          entry addrC false false]) ∧
      ¬ sameIdentity (entry addrB true false) (entry addrC false false) :=
  ⟨rfl, live_identities_unique 1000 false
    [Op.create addrA true, Op.create addrB true, Op.delete 0, Op.create addrC false]
    (managerOf [entry addrA false true, entry addrB true false, entry addrC false false])
    rfl 1 2 (entry addrB true false) (entry addrC false false) rfl rfl (by decide) rfl rfl⟩

/-- C3 (defect in the code): `DeleteBreakPoint` guards with `id > len`, so
`delete 0` on an empty table indexes out of range; neither method guards against
a negative id, so `delete -1` and `enable -1` index out of range as well. -/
theorem DeleteBreakPoint_index_out_of_range :
    DeleteBreakPoint emptyManager 0 = Except.error (RuntimeError.indexOutOfRange 0 0) ∧
      DeleteBreakPoint (managerOf [entry addrA true false]) 1 =
        Except.error (RuntimeError.indexOutOfRange 1 1) ∧
      DeleteBreakPoint (managerOf [entry addrA true false]) (-1) =
        Except.error (RuntimeError.indexOutOfRange (-1) 1) ∧
      ChangeBreakPoint (managerOf [entry addrA true false]) (-1) true =
        Except.error (RuntimeError.indexOutOfRange (-1) 1) :=
  ⟨rfl, rfl, rfl, rfl⟩

/-- C4: whenever one of the four operations returns, the table is at least as
long as before and every slot that existed before still holds an entry with the
same library and the same offset. -/
theorem ids_never_shift (m m' : BreakPointManager) (op : Op)
    (h : op.apply m = Except.ok m') :
    m.BreakPoints.length ≤ m'.BreakPoints.length ∧
      ∀ (i : Nat) (b : BreakPoint), m.BreakPoints[i]? = some b →
        ∃ b' : BreakPoint, m'.BreakPoints[i]? = some b' ∧
          b'.LibInfo = b.LibInfo ∧ b'.Offset = b.Offset := by
  have hk := apply_keeps h
  refine ⟨keeps_length hk, ?_⟩
  intro i b hb
  obtain ⟨b', h1, h2, h3, -⟩ := hk i b hb
  exact ⟨b', h1, h2, h3⟩

/-- Deleting slot 0 of a two-entry table, at which C4 is applied. -/
theorem ids_never_shift_witness :
    (Op.delete 0).apply (managerOf [entry addrA true false, entry addrB true false]) =
        Except.ok (managerOf [entry addrA false true, entry addrB true false]) ∧
      ((managerOf [entry addrA true false, entry addrB true false]).BreakPoints.length ≤
          (managerOf [entry addrA false true, entry addrB true false]).BreakPoints.length ∧
        ∀ (i : Nat) (b : BreakPoint),
          (managerOf [entry addrA true false, entry addrB true false]).BreakPoints[i]? = some b →
          ∃ b' : BreakPoint,
            (managerOf [entry addrA false true, entry addrB true false]).BreakPoints[i]? = some b' ∧
              b'.LibInfo = b.LibInfo ∧ b'.Offset = b.Offset) :=
  ⟨rfl, ids_never_shift _ _ (Op.delete 0) rfl⟩

/-! ## The listing -/

theorem printLoop_eq (l : List BreakPoint) :
    ∀ s : Nat, printLoop s l =
      (List.range l.length).filterMap (fun i =>
        match l[i]? with
        | some brk => if brk.Deleted then none else some (formatLine (s + i) brk)
        | none => none) := by
  induction l with
  | nil => intro s; simp [printLoop]
  | cons a rest ih =>
    intro s
    have hshift : ∀ i : Nat, s + 1 + i = s + (i + 1) := fun i => by omega
    simp only [printLoop, List.length_cons, List.range_succ_eq_map, List.filterMap_cons,
      List.filterMap_map, List.getElem?_cons_zero, Nat.add_zero]
    rw [ih (s + 1)]
    by_cases hd : a.Deleted = true
    · simp [hd, Function.comp_def, hshift]
    · simp [hd, Function.comp_def, hshift]

theorem PrintBreakPoints_eq (m : BreakPointManager) :
    PrintBreakPoints m =
      (List.range m.BreakPoints.length).filterMap (listedLine m.BreakPoints) := by
  unfold PrintBreakPoints
  rw [printLoop_eq]
  simp only [Nat.zero_add]
  rfl

theorem listedLine_set_deleted {l : List BreakPoint} {k : Nat} {b' : BreakPoint}
    (hk : k < l.length) (hd : b'.Deleted = true) (i : Nat) :
    listedLine (l.set k b') i = if i ≠ k then listedLine l i else none := by
  by_cases hik : i = k
  · subst hik
    simp [listedLine, List.getElem?_set_self hk, hd]
  · have hne : k ≠ i := fun h => hik h.symm
    simp [listedLine, List.getElem?_set_ne hne, hik]

theorem DeleteBreakPoint_live {m : BreakPointManager} {k : Nat} {brk : BreakPoint}
    (hk : m.BreakPoints[k]? = some brk) (hd : brk.Deleted = false) :
    DeleteBreakPoint m (k : Int) = Except.ok { m with
      BreakPoints := m.BreakPoints.set k { brk with Enable := false, Deleted := true } } := by
  have hlt : k < m.BreakPoints.length := (List.getElem?_eq_some.1 hk).1
  have h1 : ¬ ((k : Int) > (m.BreakPoints.length : Int)) := by omega
  have h2 : index m.BreakPoints (k : Int) = Except.ok brk := by
    unfold index
    have h0 : ¬ ((k : Int) < 0) := by omega
    simp [h0, hk]
  unfold DeleteBreakPoint
  simp [h1, h2, hd]

/-- C5: the listing of `PrintBreakPoints` is, in increasing index order, one line
for each slot that is not deleted; the line of slot `id` is the marker `[+] `
(enabled) or `[-] ` (disabled) followed by `id: name+offset` with the offset in
hexadecimal. Deleting a valid slot `k` that is not deleted succeeds and the new
listing is the old one without the line of `k`: all other lines are kept, each
with the id it had. -/
theorem PrintBreakPoints_listing (m : BreakPointManager) :
    PrintBreakPoints m =
        (List.range m.BreakPoints.length).filterMap (listedLine m.BreakPoints) ∧
      (∀ (id : Nat) (brk : BreakPoint), formatLine id brk =
        (if brk.Enable then "[+] " else "[-] ") ++
          (toString id ++ ": " ++ brk.LibInfo.LibName ++ "+" ++ hex brk.Offset ++ "\n")) ∧
      ∀ (k : Nat) (brk : BreakPoint), m.BreakPoints[k]? = some brk → brk.Deleted = false →
        ∃ m' : BreakPointManager, DeleteBreakPoint m (k : Int) = Except.ok m' ∧
          PrintBreakPoints m' =
            ((List.range m.BreakPoints.length).filter (fun i => i ≠ k)).filterMap
              (listedLine m.BreakPoints) := by
  refine ⟨PrintBreakPoints_eq m, ?_, ?_⟩
  · intro id brk
    unfold formatLine
    cases brk.Enable <;> rfl
  · intro k brk hk hd
    have hlt : k < m.BreakPoints.length := (List.getElem?_eq_some.1 hk).1
    refine ⟨_, DeleteBreakPoint_live hk hd, ?_⟩
    rw [PrintBreakPoints_eq]
    simp only [List.length_set]
    rw [List.filterMap_filter]
    apply List.filterMap_congr
    intro i _
    rw [listedLine_set_deleted hlt rfl]
    by_cases hik : i = k <;> simp [hik]

/-- A three-slot table with one deleted slot: its listing, and C5 applied to the deletion of slot 0. -/
theorem PrintBreakPoints_listing_witness :
    PrintBreakPoints (managerOf [entry addrA true false, entry addrB false false,
        entry addrC true true]) =
        ["[+] 0: libfoo.so+1234\n", "[-] 1: libfoo.so+1238\n"] ∧
      ∃ m' : BreakPointManager,
        DeleteBreakPoint (managerOf [entry addrA true false, entry addrB false false,
          entry addrC true true]) ((0 : Nat) : Int) = Except.ok m' ∧
        PrintBreakPoints m' =
          ((List.range (managerOf [entry addrA true false, entry addrB false false,
              entry addrC true true]).BreakPoints.length).filter (fun i => i ≠ 0)).filterMap
            (listedLine (managerOf [entry addrA true false, entry addrB false false,
              entry addrC true true]).BreakPoints) :=
  ⟨by decide,
    (PrintBreakPoints_listing (managerOf [entry addrA true false, entry addrB false false,
      entry addrC true true])).2.2 0 (entry addrA true false) rfl rfl⟩

/-! ## Deleted entries and the temporary slot -/

theorem ChangeBreakPoint_deleted_untouched {m m' : BreakPointManager} {id : Int}
    {status : Bool} (h : ChangeBreakPoint m id status = Except.ok m')
    (i : Nat) (b : BreakPoint) (hb : m.BreakPoints[i]? = some b) (hd : b.Deleted = true) :
    m'.BreakPoints[i]? = some b := by
  unfold ChangeBreakPoint at h
  split at h
  · cases h; exact hb
  · split at h
    · cases h
    · rename_i brk hbrk
      split at h
      · cases h; exact hb
      · rename_i hnd
        cases h
        have hne : id.toNat ≠ i := by
          intro hi
          subst hi
          rw [(index_ok hbrk).2] at hb
          cases hb
          exact hnd hd
        simp only
        rw [List.getElem?_set_ne hne]
        exact hb

/-- C6: whenever one of the four operations returns, every slot that was deleted
before is still there and still deleted; and `ChangeBreakPoint` (enable/disable)
leaves every deleted slot exactly as it was, so it never switches a deleted
entry back on. -/
theorem deleted_is_terminal (m m' : BreakPointManager) (op : Op)
    (h : op.apply m = Except.ok m') (i : Nat) (b : BreakPoint)
    (hb : m.BreakPoints[i]? = some b) (hd : b.Deleted = true) :
    (∃ b' : BreakPoint, m'.BreakPoints[i]? = some b' ∧ b'.Deleted = true) ∧
      ((∃ (id : Int) (status : Bool), op = Op.change id status) →
        m'.BreakPoints[i]? = some b) := by
  constructor
  · obtain ⟨b', h1, -, -, h4⟩ := apply_keeps h i b hb
    exact ⟨b', h1, h4 hd⟩
  · rintro ⟨id, status, rfl⟩
    exact ChangeBreakPoint_deleted_untouched h i b hb hd

/-- Enabling the deleted slot 0, at which C6 is applied. -/
theorem deleted_is_terminal_witness :
    (Op.change 0 true).apply (managerOf [entry addrA false true, entry addrB false false]) =
        Except.ok (managerOf [entry addrA false true, entry addrB false false]) ∧
      ((∃ b' : BreakPoint,
          (managerOf [entry addrA false true, entry addrB false false]).BreakPoints[0]? =
            some b' ∧ b'.Deleted = true) ∧
        ((∃ (id : Int) (status : Bool), Op.change 0 true = Op.change id status) →
          (managerOf [entry addrA false true, entry addrB false false]).BreakPoints[0]? =
            some (entry addrA false true))) :=
  ⟨rfl, deleted_is_terminal (managerOf [entry addrA false true, entry addrB false false])
    (managerOf [entry addrA false true, entry addrB false false]) (Op.change 0 true) rfl 0
    (entry addrA false true) rfl rfl⟩

theorem checkOffset_eq_false (offset : Nat) : checkOffset offset = false ↔ offset % 4 ≠ 0 := by
  unfold checkOffset
  simp

theorem tempLoop_iff (name : String) (offset : Nat) (l : List BreakPoint) :
    tempLoop name offset l = true ↔
      ∃ b ∈ l, b.LibInfo.LibName = name ∧ b.Offset = offset ∧ b.Enable = true := by
  induction l with
  | nil => simp [tempLoop]
  | cons a rest ih =>
    simp only [tempLoop]
    split
    · rename_i hm
      simp only [true_iff]
      exact ⟨a, List.mem_cons_self _ _, hm.1, hm.2.1.symm, hm.2.2⟩
    · rename_i hm
      rw [ih]
      constructor
      · rintro ⟨b, hb, h⟩
        exact ⟨b, List.mem_cons_of_mem _ hb, h⟩
      · rintro ⟨b, hb, h⟩
        rcases List.mem_cons.1 hb with rfl | hb
        · exact absurd ⟨h.1, h.2.1.symm, h.2.2⟩ hm
        · exact ⟨b, hb, h⟩

/-- C7: `SetTempBreak` returns an error exactly when the offset is not a multiple
of four, the error is the invalid-address error for that offset, and when it
returns an error the manager is unchanged in every field. -/
theorem SetTempBreak_error_iff (m : BreakPointManager) (address : Address) (tid : Nat) :
    ((SetTempBreak m address tid).2 ≠ none ↔ address.Offset % 4 ≠ 0) ∧
      ((SetTempBreak m address tid).2 ≠ none →
        (SetTempBreak m address tid).2 = some (Error.InvalidAddress address.Offset) ∧
          (SetTempBreak m address tid).1 = m) := by
  unfold SetTempBreak
  dsimp only
  by_cases hc : checkOffset address.Offset = false
  · have hmod := (checkOffset_eq_false _).1 hc
    simp [hc, hmod]
  · have hmod : ¬ (address.Offset % 4 ≠ 0) := fun h => hc ((checkOffset_eq_false _).2 h)
    rw [if_neg hc]
    split <;> simp [hmod]

/-- The misaligned offset 0x1235, at which C7 is applied. -/
theorem SetTempBreak_error_iff_witness :
    (SetTempBreak (managerOf [entry addrA true false]) addrOdd 7).2 ≠ none ∧
      (SetTempBreak (managerOf [entry addrA true false]) addrOdd 7).2 =
        some (Error.InvalidAddress addrOdd.Offset) ∧
      (SetTempBreak (managerOf [entry addrA true false]) addrOdd 7).1 =
        managerOf [entry addrA true false] :=
  ⟨by decide,
    (SetTempBreak_error_iff (managerOf [entry addrA true false]) addrOdd 7).2 (by decide)⟩

/-- C8 (counterexample): with an enabled breakpoint at `libfoo.so+0x1234` in the
table, `SetTempBreak` for that aligned address and thread 7 returns no error and
leaves the slot empty: no temporary is pending and the thread id is still 0. -/
theorem SetTempBreak_skips_enabled_duplicate :
    addrA.Offset % 4 = 0 ∧
      SetTempBreak (managerOf [entry addrA true false]) addrA 7 =
        (managerOf [entry addrA true false], none) ∧
      (SetTempBreak (managerOf [entry addrA true false]) addrA 7).1.HasTempBreak = false ∧
      (SetTempBreak (managerOf [entry addrA true false]) addrA 7).1.temporaryBreakPoint = none ∧
      (SetTempBreak (managerOf [entry addrA true false]) addrA 7).1.TempBreakTid ≠ 7 :=
  ⟨by decide, rfl, rfl, rfl, by decide⟩

/-- C8 (amended): for an aligned address, `SetTempBreak` returns no error and the
table is unchanged; if no enabled entry of the table has the identity of the
address, it replaces the temporary slot (pending flag set, the slot holds the
enabled, not deleted breakpoint of the address, thread id and absolute address
recorded); if some enabled entry has that identity, the whole manager is
unchanged. -/
theorem SetTempBreak_aligned (m : BreakPointManager) (address : Address) (tid : Nat)
    (h : address.Offset % 4 = 0) :
    (SetTempBreak m address tid).2 = none ∧
      (SetTempBreak m address tid).1.BreakPoints = m.BreakPoints ∧
      (¬ enabledAt m.BreakPoints address →
        (SetTempBreak m address tid).1.HasTempBreak = true ∧
          (SetTempBreak m address tid).1.temporaryBreakPoint =
            some { LibInfo := address.LibInfo, Offset := address.Offset,
                   Enable := true, Deleted := false } ∧
          (SetTempBreak m address tid).1.TempBreakTid = tid ∧
          (SetTempBreak m address tid).1.TempAddressAbsolute = address.Absolute) ∧
      (enabledAt m.BreakPoints address → (SetTempBreak m address tid).1 = m) := by
  have hc : ¬ (checkOffset address.Offset = false) := by
    rw [checkOffset_eq_false]
    exact fun hn => hn h
  refine ⟨?_, SetTempBreak_table m address tid, ?_, ?_⟩
  · unfold SetTempBreak
    dsimp only
    rw [if_neg hc]
    split <;> rfl
  · intro hno
    have ht : ¬ (tempLoop address.LibInfo.LibName address.Offset m.BreakPoints = true) :=
      fun ht => hno ((tempLoop_iff _ _ _).1 ht)
    unfold SetTempBreak
    dsimp only
    rw [if_neg hc, if_neg ht]
    exact ⟨rfl, rfl, rfl, rfl⟩
  · intro hyes
    have ht : tempLoop address.LibInfo.LibName address.Offset m.BreakPoints = true :=
      (tempLoop_iff _ _ _).2 hyes
    unfold SetTempBreak
    dsimp only
    rw [if_neg hc, if_pos ht]

/-- An aligned address without an enabled entry in the table, at which the amended C8 is applied. -/
theorem SetTempBreak_aligned_witness :
    addrB.Offset % 4 = 0 ∧ ¬ enabledAt (managerOf [entry addrA true false]).BreakPoints addrB ∧
      ((SetTempBreak (managerOf [entry addrA true false]) addrB 7).1.HasTempBreak = true ∧
        (SetTempBreak (managerOf [entry addrA true false]) addrB 7).1.temporaryBreakPoint =
          some { LibInfo := addrB.LibInfo, Offset := addrB.Offset,
                 Enable := true, Deleted := false } ∧
        (SetTempBreak (managerOf [entry addrA true false]) addrB 7).1.TempBreakTid = 7 ∧
        (SetTempBreak (managerOf [entry addrA true false]) addrB 7).1.TempAddressAbsolute =
          addrB.Absolute) :=
  ⟨by decide, by decide,
    (SetTempBreak_aligned (managerOf [entry addrA true false]) addrB 7 (by decide)).2.2.1
      (by decide)⟩

/-! ## Stepping and probe installation -/

/-- C9 (defect in the code): at a branch for which the predictor returns the
sentinel, with `PC + 4` resolving to `libfoo.so+0x1238` and the branch target to
`libfoo.so+0x2000`, both aligned and the table empty, `HandleStep` and
`HandleNext` return `true` with the single temporary slot holding the branch
target only: the second `SetTempBreak` overwrote the first. On the following
resume `SetupManager` receives just that one breakpoint (uprobe mode), or
`SetHWBreak` just the target address (hardware mode); the breakpoint at
`PC + 4` is in no list handed to the probe handler. -/
theorem HandleStep_sentinel_keeps_only_target :
    HandleStep branchEnv stoppedClient =
        (true, { stoppedClient with BrkManager :=
          { emptyManager with
            temporaryBreakPoint := some (entry addrC true false)
            HasTempBreak := true
            TempBreakTid := 7
            TempAddressAbsolute := addrC.Absolute } }) ∧
      HandleNext branchEnv stoppedClient = HandleStep branchEnv stoppedClient ∧
      (SetupProbe okProbes (HandleStep branchEnv stoppedClient).2.BrkManager).2.1 =
        [ProbeCall.SetupManager [some (entry addrC true false)] false, ProbeCall.Run] ∧
      (SetupProbe hwProbes
          { (HandleStep branchEnv stoppedClient).2.BrkManager with EnableHW := true }).2.1 =
        [ProbeCall.SetupManager [] true, ProbeCall.SetHWBreak 1000 addrC.Absolute,
          ProbeCall.Run] ∧
      (∀ brks ∈ handedLists
          (SetupProbe okProbes (HandleStep branchEnv stoppedClient).2.BrkManager).2.1,
        some (entry addrB true false) ∉ brks) := by
  refine ⟨rfl, rfl, rfl, rfl, ?_⟩
  decide

theorem SetupProbe_handed (env : ProbeEnv) (m : BreakPointManager) :
    (m.HasTempBreak = false →
        handedLists (SetupProbe env m).2.1 = [m.BreakPoints.map some]) ∧
      (m.HasTempBreak = true → m.EnableHW = false →
        handedLists (SetupProbe env m).2.1 =
          [m.BreakPoints.map some ++ [m.temporaryBreakPoint]]) ∧
      (m.HasTempBreak = true → m.EnableHW = true →
        handedLists (SetupProbe env m).2.1 = [m.BreakPoints.map some] ∨
        handedLists (SetupProbe env m).2.1 =
          [m.BreakPoints.map some, m.BreakPoints.map some ++ [m.temporaryBreakPoint]]) := by
  refine ⟨?_, ?_, ?_⟩
  · intro h
    cases hS : env.SetupManager (m.BreakPoints.map some) false <;>
      simp [SetupProbe, runProbes, handedLists, h, hS]
  · intro h hw
    cases hU : env.SetupManager (m.BreakPoints.map some ++ [m.temporaryBreakPoint]) false <;>
      simp [SetupProbe, UseUprobe, runProbes, handedLists, h, hw, hU]
  · intro h hw
    cases hS : env.SetupManager (m.BreakPoints.map some) true <;>
      cases hsafe : (env.SafeAddress m.WorkPid m.TempAddressAbsolute).1 <;>
      cases hH : env.SetHWBreak m.WorkPid m.TempAddressAbsolute <;>
      cases hU : env.SetupManager (m.BreakPoints.map some ++ [m.temporaryBreakPoint]) false <;>
      simp [SetupProbe, UseUprobe, runProbes, handedLists, h, hw, hS, hsafe, hH, hU]

theorem SetupProbe_handed_hw (env : ProbeEnv) (m : BreakPointManager)
    (hT : m.HasTempBreak = true) (hHW : m.EnableHW = true) :
    (env.SetupManager (m.BreakPoints.map some) true ≠ none →
        handedLists (SetupProbe env m).2.1 = [m.BreakPoints.map some]) ∧
      (env.SetupManager (m.BreakPoints.map some) true = none →
        (env.SafeAddress m.WorkPid m.TempAddressAbsolute).1 = true →
        handedLists (SetupProbe env m).2.1 =
          [m.BreakPoints.map some, m.BreakPoints.map some ++ [m.temporaryBreakPoint]]) ∧
      (env.SetupManager (m.BreakPoints.map some) true = none →
        (env.SafeAddress m.WorkPid m.TempAddressAbsolute).1 = false →
        env.SetHWBreak m.WorkPid m.TempAddressAbsolute = none →
        handedLists (SetupProbe env m).2.1 = [m.BreakPoints.map some]) ∧
      (env.SetupManager (m.BreakPoints.map some) true = none →
        (env.SafeAddress m.WorkPid m.TempAddressAbsolute).1 = false →
        env.SetHWBreak m.WorkPid m.TempAddressAbsolute ≠ none →
        handedLists (SetupProbe env m).2.1 =
          [m.BreakPoints.map some, m.BreakPoints.map some ++ [m.temporaryBreakPoint]]) := by
  cases hS : env.SetupManager (m.BreakPoints.map some) true <;>
    cases hsafe : (env.SafeAddress m.WorkPid m.TempAddressAbsolute).1 <;>
    cases hH : env.SetHWBreak m.WorkPid m.TempAddressAbsolute <;>
    cases hU : env.SetupManager (m.BreakPoints.map some ++ [m.temporaryBreakPoint]) false <;>
    simp [SetupProbe, UseUprobe, runProbes, handedLists, hT, hHW, hS, hsafe, hH, hU]

theorem enabledOf_table (l : List BreakPoint) :
    enabledOf (l.map some) = l.filter (fun b => b.Enable) := by
  simp [enabledOf, List.filterMap_map]

theorem enabledOf_table_temp (l : List BreakPoint) (t : Option BreakPoint) :
    enabledOf (l.map some ++ [t]) =
      l.filter (fun b => b.Enable) ++ (t.toList).filter (fun b => b.Enable) := by
  cases t <;> simp [enabledOf, List.filterMap_map, List.filterMap_append]

theorem nodup_key_filter {l : List BreakPoint} (p : BreakPoint → Bool)
    (h : (l.map key).Nodup) : ((l.filter p).map key).Nodup :=
  List.Nodup.sublist (List.Sublist.map key (List.filter_sublist l)) h

theorem nodup_key_with_temp {l : List BreakPoint} {t : Option BreakPoint}
    (hn : (l.map key).Nodup)
    (ht : ∀ c : BreakPoint, t = some c → ∀ b ∈ l, b.Enable = true → ¬ sameIdentity b c) :
    ((enabledOf (l.map some ++ [t])).map key).Nodup := by
  rw [enabledOf_table_temp, List.map_append, List.nodup_append]
  refine ⟨nodup_key_filter _ hn, ?_, ?_⟩
  · cases t with
    | none => simp
    | some c => by_cases hc : c.Enable = true <;> simp [hc]
  · intro k hk1 hk2
    obtain ⟨b, hb, hbk⟩ := List.mem_map.1 hk1
    obtain ⟨c, hc, hck⟩ := List.mem_map.1 hk2
    have hbl := List.mem_filter.1 hb
    have hct : t = some c := by
      have := (List.mem_filter.1 hc).1
      simpa [Option.mem_toList] using this
    apply ht c hct b hbl.1 (by simpa using hbl.2)
    have hkk : key b = key c := by rw [hbk, hck]
    simp only [key, Prod.mk.injEq] at hkk
    exact hkk

/-- C10 (counterexample): with a disabled, an enabled and a deleted entry in the
table and no temporary pending, `SetupProbe` hands all three entries to
`SetupManager`, the disabled and the deleted one included; and with a disabled
entry at `libfoo.so+0x1234` and a temporary set at the same address, the list
handed over holds two elements with the same identity. -/
theorem SetupProbe_hands_disabled_and_deleted :
    handedLists (SetupProbe okProbes (managerOf [entry addrA false false,
        entry addrB true false, entry addrC false true])).2.1 =
        [[some (entry addrA false false), some (entry addrB true false),
          some (entry addrC false true)]] ∧
      handedLists (SetupProbe okProbes
          (SetTempBreak (managerOf [entry addrA false false]) addrA 7).1).2.1 =
        [[some (entry addrA false false), some (entry addrA true false)]] ∧
      sameIdentity (entry addrA false false) (entry addrA true false) :=
  ⟨rfl, rfl, by decide⟩

/-- C10 (amended): every list `SetupProbe` hands to `SetupManager` is the whole
persistent table in index order, nothing filtered out, followed by the
temporary breakpoint when the list comes from `UseUprobe`. With no temporary
pending the table alone is handed over once. With a temporary pending and no
hardware breakpoints, the table followed by the temporary is handed over once.
With a temporary pending and hardware breakpoints on, the table alone is handed
over first; nothing more follows when that call fails, or when `SafeAddress`
reports `false` and `SetHWBreak` succeeds; the table followed by the temporary
is handed over as a second list when `SafeAddress` reports `true`, and when it
reports `false` and `SetHWBreak` fails. When the identities in the table are
pairwise distinct and the temporary differs in identity from every enabled
entry, no two enabled elements of a handed list share an identity. -/
theorem SetupProbe_hands_whole_table (env : ProbeEnv) (m : BreakPointManager) :
    (UseUprobe env m).2 =
        [ProbeCall.SetupManager (m.BreakPoints.map some ++ [m.temporaryBreakPoint]) false] ∧
      (m.HasTempBreak = false →
        handedLists (SetupProbe env m).2.1 = [m.BreakPoints.map some]) ∧
      (m.HasTempBreak = true → m.EnableHW = false →
        handedLists (SetupProbe env m).2.1 =
          [m.BreakPoints.map some ++ [m.temporaryBreakPoint]]) ∧
      (m.HasTempBreak = true → m.EnableHW = true →
        env.SetupManager (m.BreakPoints.map some) true ≠ none →
        handedLists (SetupProbe env m).2.1 = [m.BreakPoints.map some]) ∧
      (m.HasTempBreak = true → m.EnableHW = true →
        env.SetupManager (m.BreakPoints.map some) true = none →
        (env.SafeAddress m.WorkPid m.TempAddressAbsolute).1 = true →
        handedLists (SetupProbe env m).2.1 =
          [m.BreakPoints.map some, m.BreakPoints.map some ++ [m.temporaryBreakPoint]]) ∧
      (m.HasTempBreak = true → m.EnableHW = true →
        env.SetupManager (m.BreakPoints.map some) true = none →
        (env.SafeAddress m.WorkPid m.TempAddressAbsolute).1 = false →
        env.SetHWBreak m.WorkPid m.TempAddressAbsolute = none →
        handedLists (SetupProbe env m).2.1 = [m.BreakPoints.map some]) ∧
      (m.HasTempBreak = true → m.EnableHW = true →
        env.SetupManager (m.BreakPoints.map some) true = none →
        (env.SafeAddress m.WorkPid m.TempAddressAbsolute).1 = false →
        env.SetHWBreak m.WorkPid m.TempAddressAbsolute ≠ none →
        handedLists (SetupProbe env m).2.1 =
          [m.BreakPoints.map some, m.BreakPoints.map some ++ [m.temporaryBreakPoint]]) ∧
      ((m.BreakPoints.map key).Nodup →
        (∀ c : BreakPoint, m.temporaryBreakPoint = some c →
          ∀ b ∈ m.BreakPoints, b.Enable = true → ¬ sameIdentity b c) →
        ∀ brks ∈ handedLists (SetupProbe env m).2.1, ((enabledOf brks).map key).Nodup) := by
  obtain ⟨hA, hB, hC⟩ := SetupProbe_handed env m
  refine ⟨rfl, hA, hB,
    fun hT hHW => (SetupProbe_handed_hw env m hT hHW).1,
    fun hT hHW => (SetupProbe_handed_hw env m hT hHW).2.1,
    fun hT hHW => (SetupProbe_handed_hw env m hT hHW).2.2.1,
    fun hT hHW => (SetupProbe_handed_hw env m hT hHW).2.2.2, ?_⟩
  intro hn ht brks hbrks
  have hT : ((enabledOf (m.BreakPoints.map some)).map key).Nodup := by
    rw [enabledOf_table]
    exact nodup_key_filter _ hn
  have hU : ((enabledOf (m.BreakPoints.map some ++ [m.temporaryBreakPoint])).map key).Nodup :=
    nodup_key_with_temp hn ht
  cases hf : m.HasTempBreak with
  | false =>
    rw [hA hf] at hbrks
    simp only [List.mem_singleton] at hbrks
    rw [hbrks]
    exact hT
  | true =>
    cases hw : m.EnableHW with
    | false =>
      rw [hB hf hw] at hbrks
      simp only [List.mem_singleton] at hbrks
      rw [hbrks]
      exact hU
    | true =>
      rcases hC hf hw with h1 | h2
      · rw [h1] at hbrks
        simp only [List.mem_singleton] at hbrks
        rw [hbrks]
        exact hT
      · rw [h2] at hbrks
        simp only [List.mem_cons, List.mem_singleton, List.not_mem_nil, or_false] at hbrks
        rcases hbrks with h | h
        · rw [h]; exact hT
        · rw [h]; exact hU

/-- A table with a disabled and an enabled entry and a temporary at the disabled
one, resumed without hardware breakpoints; and `pendingHW` resumed in each of
the three ways the hardware mode can go once the first `SetupManager` call has
succeeded: the amended C10 applied to each. -/
theorem SetupProbe_hands_whole_table_witness :
    ((SetTempBreak (managerOf [entry addrA false false, entry addrB true false])
        addrA 7).1.BreakPoints.map key).Nodup ∧
      (∀ c : BreakPoint,
        (SetTempBreak (managerOf [entry addrA false false, entry addrB true false])
          addrA 7).1.temporaryBreakPoint = some c →
        ∀ b ∈ (SetTempBreak (managerOf [entry addrA false false, entry addrB true false])
          addrA 7).1.BreakPoints, b.Enable = true → ¬ sameIdentity b c) ∧
      handedLists (SetupProbe okProbes
          (SetTempBreak (managerOf [entry addrA false false, entry addrB true false])
            addrA 7).1).2.1 =
        [[some (entry addrA false false), some (entry addrB true false),
          some (entry addrA true false)]] ∧
      (∀ brks ∈ handedLists (SetupProbe okProbes
          (SetTempBreak (managerOf [entry addrA false false, entry addrB true false])
            addrA 7).1).2.1, ((enabledOf brks).map key).Nodup) ∧
      handedLists (SetupProbe okProbes pendingHW).2.1 =
        [pendingHW.BreakPoints.map some,
          pendingHW.BreakPoints.map some ++ [pendingHW.temporaryBreakPoint]] ∧
      handedLists (SetupProbe hwProbes pendingHW).2.1 = [pendingHW.BreakPoints.map some] ∧
      handedLists (SetupProbe fallbackProbes pendingHW).2.1 =
        [pendingHW.BreakPoints.map some,
          pendingHW.BreakPoints.map some ++ [pendingHW.temporaryBreakPoint]] := by
  have hn : ((SetTempBreak (managerOf [entry addrA false false, entry addrB true false])
      addrA 7).1.BreakPoints.map key).Nodup := by decide
  have ht : ∀ c : BreakPoint,
      (SetTempBreak (managerOf [entry addrA false false, entry addrB true false])
        addrA 7).1.temporaryBreakPoint = some c →
      ∀ b ∈ (SetTempBreak (managerOf [entry addrA false false, entry addrB true false])
        addrA 7).1.BreakPoints, b.Enable = true → ¬ sameIdentity b c := by
    intro c hc
    have hc' : c = entry addrA true false := by
      have : some (entry addrA true false) = some c := hc
      exact (Option.some.inj this).symm
    subst hc'
    decide
  exact ⟨hn, ht, rfl,
    (SetupProbe_hands_whole_table okProbes
      (SetTempBreak (managerOf [entry addrA false false, entry addrB true false])
        addrA 7).1).2.2.2.2.2.2.2 hn ht,
    (SetupProbe_hands_whole_table okProbes pendingHW).2.2.2.2.1 rfl rfl rfl rfl,
    (SetupProbe_hands_whole_table hwProbes pendingHW).2.2.2.2.2.1 rfl rfl rfl rfl rfl,
    (SetupProbe_hands_whole_table fallbackProbes pendingHW).2.2.2.2.2.2.1 rfl rfl rfl rfl
      (by decide)⟩

/-! ## Further facts about the operations -/

theorem SetTempBreak_sets_fresh (m : BreakPointManager) (address : Address) (tid : Nat)
    (h : address.Offset % 4 = 0) (hno : ¬ enabledAt m.BreakPoints address) :
    ∀ c : BreakPoint, (SetTempBreak m address tid).1.temporaryBreakPoint = some c →
      ∀ b ∈ (SetTempBreak m address tid).1.BreakPoints, b.Enable = true →
        ¬ sameIdentity b c := by
  have hc : ¬ (checkOffset address.Offset = false) := by
    rw [checkOffset_eq_false]
    exact fun hn => hn h
  have ht : ¬ (tempLoop address.LibInfo.LibName address.Offset m.BreakPoints = true) :=
    fun ht => hno ((tempLoop_iff _ _ _).1 ht)
  intro c hcs b hb he hs
  rw [SetTempBreak_table] at hb
  unfold SetTempBreak at hcs
  dsimp only at hcs
  rw [if_neg hc, if_neg ht] at hcs
  simp only [Option.some.injEq] at hcs
  subst hcs
  exact hno ⟨b, hb, hs.1, hs.2, he⟩

theorem DeleteBreakPoint_at_length (m : BreakPointManager) :
    DeleteBreakPoint m (m.BreakPoints.length : Int) =
      Except.error
        (RuntimeError.indexOutOfRange (m.BreakPoints.length : Int) m.BreakPoints.length) := by
  unfold DeleteBreakPoint index
  simp

theorem ChangeBreakPoint_total (m : BreakPointManager) (id : Int) (status : Bool)
    (h : 0 ≤ id) : ∃ m' : BreakPointManager, ChangeBreakPoint m id status = Except.ok m' := by
  unfold ChangeBreakPoint
  split
  · exact ⟨m, rfl⟩
  · rename_i hlt
    have hn : id.toNat < m.BreakPoints.length := by omega
    have hi : index m.BreakPoints id = Except.ok m.BreakPoints[id.toNat] := by
      unfold index
      have h0 : ¬ id < 0 := by omega
      simp [h0, List.getElem?_eq_getElem hn]
    rw [hi]
    dsimp only
    split
    · exact ⟨m, rfl⟩
    · exact ⟨_, rfl⟩

/-! ## Resuming: the safety override and the consumption of the temporary -/

/-- C11: in `SetupProbe` with hardware breakpoints on and a temporary pending,
when `SafeAddress` reports `true` for the temporary's address, `SetHWBreak` is
not called at all and, once the first `SetupManager` has succeeded, `UseUprobe`
hands the table followed by the temporary to `SetupManager`; a call of
`SetHWBreak` happens only when `SafeAddress` reports `false`, and then it is for
`WorkPid` at `TempAddressAbsolute`; it does happen whenever `SafeAddress` reports
`false` and the first `SetupManager` has succeeded. -/
theorem SetupProbe_safety_override (env : ProbeEnv) (m : BreakPointManager)
    (hT : m.HasTempBreak = true) (hHW : m.EnableHW = true) :
    ((env.SafeAddress m.WorkPid m.TempAddressAbsolute).1 = true →
        (∀ (pid addr : Nat), ProbeCall.SetHWBreak pid addr ∉ (SetupProbe env m).2.1) ∧
        (env.SetupManager (m.BreakPoints.map some) true = none →
          ProbeCall.SetupManager (m.BreakPoints.map some ++ [m.temporaryBreakPoint]) false ∈
            (SetupProbe env m).2.1)) ∧
      (∀ (pid addr : Nat), ProbeCall.SetHWBreak pid addr ∈ (SetupProbe env m).2.1 →
        (env.SafeAddress m.WorkPid m.TempAddressAbsolute).1 = false ∧
          pid = m.WorkPid ∧ addr = m.TempAddressAbsolute) ∧
      ((env.SafeAddress m.WorkPid m.TempAddressAbsolute).1 = false →
        env.SetupManager (m.BreakPoints.map some) true = none →
        ProbeCall.SetHWBreak m.WorkPid m.TempAddressAbsolute ∈ (SetupProbe env m).2.1) := by
  cases hS : env.SetupManager (m.BreakPoints.map some) true <;>
    cases hsafe : (env.SafeAddress m.WorkPid m.TempAddressAbsolute).1 <;>
    cases hH : env.SetHWBreak m.WorkPid m.TempAddressAbsolute <;>
    cases hU : env.SetupManager (m.BreakPoints.map some ++ [m.temporaryBreakPoint]) false <;>
    simp [SetupProbe, UseUprobe, runProbes, hT, hHW, hS, hsafe, hH, hU]

/-- With every address safe for uprobes, resuming `pendingHW` makes no call of
`SetHWBreak` and hands the table followed by the temporary to `SetupManager`. -/
theorem SetupProbe_safety_override_witness :
    (okProbes.SafeAddress pendingHW.WorkPid pendingHW.TempAddressAbsolute).1 = true ∧
      okProbes.SetupManager (pendingHW.BreakPoints.map some) true = none ∧
      (∀ (pid addr : Nat), ProbeCall.SetHWBreak pid addr ∉ (SetupProbe okProbes pendingHW).2.1) ∧
      ProbeCall.SetupManager (pendingHW.BreakPoints.map some ++ [pendingHW.temporaryBreakPoint])
        false ∈ (SetupProbe okProbes pendingHW).2.1 :=
  ⟨rfl, rfl,
    ((SetupProbe_safety_override okProbes pendingHW rfl rfl).1 rfl).1,
    ((SetupProbe_safety_override okProbes pendingHW rfl rfl).1 rfl).2 rfl⟩

/-- C16: when `SetupProbe` returns without error, `HasTempBreak` is `false`
afterwards, whichever way the temporary was installed; when no temporary was
pending, `TempBreakTid` is 0 afterwards; and in every case, error or not, the
persistent table is the one before the call. -/
theorem SetupProbe_consumes_temporary (env : ProbeEnv) (m : BreakPointManager) :
    ((SetupProbe env m).2.2 = none → (SetupProbe env m).1.HasTempBreak = false) ∧
      (m.HasTempBreak = false → (SetupProbe env m).1.TempBreakTid = 0) ∧
      (SetupProbe env m).1.BreakPoints = m.BreakPoints := by
  cases hT : m.HasTempBreak <;>
    cases hHW : m.EnableHW <;>
    cases hS0 : env.SetupManager (m.BreakPoints.map some) false <;>
    cases hS : env.SetupManager (m.BreakPoints.map some) true <;>
    cases hsafe : (env.SafeAddress m.WorkPid m.TempAddressAbsolute).1 <;>
    cases hH : env.SetHWBreak m.WorkPid m.TempAddressAbsolute <;>
    cases hU : env.SetupManager (m.BreakPoints.map some ++ [m.temporaryBreakPoint]) false <;>
    simp [SetupProbe, UseUprobe, runProbes, hT, hHW, hS0, hS, hsafe, hH, hU]

/-- Resuming `pendingHW` through the uprobe path, through a hardware breakpoint
and through the fallback after a failed `SetHWBreak`: each returns without error
and leaves no temporary pending. -/
theorem SetupProbe_consumes_temporary_witness :
    pendingHW.HasTempBreak = true ∧
      ((SetupProbe okProbes pendingHW).2.2 = none ∧
        (SetupProbe okProbes pendingHW).1.HasTempBreak = false) ∧
      ((SetupProbe hwProbes pendingHW).2.2 = none ∧
        (SetupProbe hwProbes pendingHW).1.HasTempBreak = false) ∧
      ((SetupProbe fallbackProbes pendingHW).2.2 = none ∧
        (SetupProbe fallbackProbes pendingHW).1.HasTempBreak = false) :=
  ⟨rfl,
    ⟨rfl, (SetupProbe_consumes_temporary okProbes pendingHW).1 rfl⟩,
    ⟨rfl, (SetupProbe_consumes_temporary hwProbes pendingHW).1 rfl⟩,
    ⟨rfl, (SetupProbe_consumes_temporary fallbackProbes pendingHW).1 rfl⟩⟩

/-- C18 (defect in the code): `break libfoo.so+0x1234`, `delete 0`, then
`break libfoo.so+0x1234` again, three calls none of which is `SetTempBreak`,
lead to a table whose only entry is deleted and enabled at once; the duplicate
check of `SetTempBreak` is then satisfied by that deleted entry, so no temporary
is set at the address. -/
theorem tombstone_enabled_again :
    runOps emptyManager [Op.create addrA true, Op.delete 0, Op.create addrA true] =
        Except.ok (managerOf [entry addrA true true]) ∧
      (entry addrA true true).Deleted = true ∧ (entry addrA true true).Enable = true ∧
      tempLoop addrA.LibInfo.LibName addrA.Offset (managerOf [entry addrA true true]).BreakPoints =
        true ∧
      SetTempBreak (managerOf [entry addrA true true]) addrA 7 =
        (managerOf [entry addrA true true], none) :=
  ⟨rfl, rfl, rfl, by decide, rfl⟩

/-! ## The `until` and `finish` commands -/

/-- C14 (defect in the code): `until 0x7000001235` resolves to
`libfoo.so+0x1235`, an offset that is not a multiple of four. `SetTempBreak`
returns its invalid-address error and sets nothing, yet `HandleUntil` returns
`true`, so the command goes on to `SetupProbe`: the probes are installed, without
any temporary breakpoint, and run. -/
theorem HandleUntil_misaligned_returns_true :
    ParseUserAddress parseEnv libfoo stoppedClient.Process "0x7000001235" = Except.ok addrOdd ∧
      addrOdd.Offset % 4 ≠ 0 ∧
      (SetTempBreak stoppedClient.BrkManager addrOdd stoppedClient.Process.WorkTid).2 =
        some (Error.InvalidAddress addrOdd.Offset) ∧
      HandleUntil parseEnv libfoo stoppedClient ["0x7000001235"] = (true, stoppedClient) ∧
      untilProbeCalls okProbes parseEnv libfoo stoppedClient ["0x7000001235"] =
        [ProbeCall.SetupManager [] false, ProbeCall.Run] :=
  ⟨rfl, by decide, rfl, rfl, rfl⟩

theorem SetTempBreak_fresh_eq (m : BreakPointManager) (address : Address) (tid : Nat)
    (h : address.Offset % 4 = 0) (hno : ¬ enabledAt m.BreakPoints address) :
    SetTempBreak m address tid =
      ({ m with
          TempAddressAbsolute := address.Absolute
          TempBreakTid := tid
          temporaryBreakPoint := some { LibInfo := address.LibInfo, Offset := address.Offset,
                                        Enable := true, Deleted := false }
          HasTempBreak := true }, none) := by
  have hc : ¬ (checkOffset address.Offset = false) := by
    rw [checkOffset_eq_false]
    exact fun hn => hn h
  have ht : ¬ (tempLoop address.LibInfo.LibName address.Offset m.BreakPoints = true) :=
    fun ht => hno ((tempLoop_iff _ _ _).1 ht)
  unfold SetTempBreak
  dsimp only
  rw [if_neg hc, if_neg ht]

theorem SetTempBreak_dup_eq (m : BreakPointManager) (address : Address) (tid : Nat)
    (h : address.Offset % 4 = 0) (hyes : enabledAt m.BreakPoints address) :
    SetTempBreak m address tid = (m, none) := by
  have hc : ¬ (checkOffset address.Offset = false) := by
    rw [checkOffset_eq_false]
    exact fun hn => hn h
  have ht : tempLoop address.LibInfo.LibName address.Offset m.BreakPoints = true :=
    (tempLoop_iff _ _ _).2 hyes
  unfold SetTempBreak
  dsimp only
  rw [if_neg hc, if_pos ht]

/-- C17 (counterexample): `LR` resolves to `libfoo.so+0x1234`, where the table
already holds an enabled breakpoint. `HandleFinish` returns `true`, but no
temporary breakpoint is pending afterwards and `TempBreakTid` is not the working
thread. -/
theorem HandleFinish_skips_enabled_duplicate :
    finishEnv.ParseAddress stoppedClient.Process.Context.LR = Except.ok addrA ∧
      HandleFinish finishEnv { stoppedClient with BrkManager := managerOf [entry addrA true false] } =
        (true, { stoppedClient with BrkManager := managerOf [entry addrA true false] }) ∧
      (HandleFinish finishEnv
        { stoppedClient with BrkManager := managerOf [entry addrA true false] }).2.BrkManager.HasTempBreak =
        false ∧
      (HandleFinish finishEnv
        { stoppedClient with BrkManager := managerOf [entry addrA true false] }).2.BrkManager.TempBreakTid ≠
        stoppedClient.Process.WorkTid :=
  ⟨rfl, rfl, rfl, by decide⟩

/-- C17 (amended): `HandleFinish` depends on `Process.ParseAddress` only, not on
the predictor. When `LR` does not resolve it returns `false` and changes
nothing. When `LR` resolves to an address `A` with an aligned offset it returns
`true` and leaves the process fields and the table alone; if no enabled entry of
the table has the identity of `A`, a temporary breakpoint is pending afterwards
at `(A.LibInfo, A.Offset)`, enabled and not deleted, with
`TempAddressAbsolute = A.Absolute` and `TempBreakTid = WorkTid`; if some enabled
entry has that identity, the manager is unchanged. -/
theorem HandleFinish_sets_temporary (env : StepEnv) (c : Client) :
    (∀ env' : StepEnv, env'.ParseAddress = env.ParseAddress →
        HandleFinish env' c = HandleFinish env c) ∧
      (∀ e : Error, env.ParseAddress c.Process.Context.LR = Except.error e →
        HandleFinish env c = (false, c)) ∧
      (∀ A : Address, env.ParseAddress c.Process.Context.LR = Except.ok A →
        A.Offset % 4 = 0 →
        (HandleFinish env c).1 = true ∧
          (HandleFinish env c).2.Process = c.Process ∧
          (HandleFinish env c).2.BrkManager.BreakPoints = c.BrkManager.BreakPoints ∧
          (¬ enabledAt c.BrkManager.BreakPoints A →
            (HandleFinish env c).2.BrkManager.HasTempBreak = true ∧
              (HandleFinish env c).2.BrkManager.temporaryBreakPoint =
                some { LibInfo := A.LibInfo, Offset := A.Offset,
                       Enable := true, Deleted := false } ∧
              (HandleFinish env c).2.BrkManager.TempAddressAbsolute = A.Absolute ∧
              (HandleFinish env c).2.BrkManager.TempBreakTid = c.Process.WorkTid) ∧
          (enabledAt c.BrkManager.BreakPoints A → (HandleFinish env c).2 = c)) := by
  refine ⟨?_, ?_, ?_⟩
  · intro env' h
    unfold HandleFinish
    rw [h]
  · intro e h
    unfold HandleFinish
    rw [h]
  · intro A hA hal
    unfold HandleFinish
    rw [hA]
    refine ⟨rfl, rfl, SetTempBreak_table _ _ _, ?_, ?_⟩
    · intro hno
      show (SetTempBreak c.BrkManager A c.Process.WorkTid).1.HasTempBreak = true ∧
        (SetTempBreak c.BrkManager A c.Process.WorkTid).1.temporaryBreakPoint =
          some { LibInfo := A.LibInfo, Offset := A.Offset, Enable := true, Deleted := false } ∧
        (SetTempBreak c.BrkManager A c.Process.WorkTid).1.TempAddressAbsolute = A.Absolute ∧
        (SetTempBreak c.BrkManager A c.Process.WorkTid).1.TempBreakTid = c.Process.WorkTid
      rw [SetTempBreak_fresh_eq _ _ _ hal hno]
      exact ⟨rfl, rfl, rfl, rfl⟩
    · intro hyes
      show ({ c with BrkManager := (SetTempBreak c.BrkManager A c.Process.WorkTid).1 } : Client) = c
      rw [SetTempBreak_dup_eq _ _ _ hal hyes]

/-- At a stop with an empty table and `LR` resolving to `libfoo.so+0x1234`,
`finish` leaves the temporary breakpoint pending there for thread 7. -/
theorem HandleFinish_sets_temporary_witness :
    finishEnv.ParseAddress stoppedClient.Process.Context.LR = Except.ok addrA ∧
      addrA.Offset % 4 = 0 ∧ ¬ enabledAt stoppedClient.BrkManager.BreakPoints addrA ∧
      ((HandleFinish finishEnv stoppedClient).2.BrkManager.HasTempBreak = true ∧
        (HandleFinish finishEnv stoppedClient).2.BrkManager.temporaryBreakPoint =
          some { LibInfo := addrA.LibInfo, Offset := addrA.Offset,
                 Enable := true, Deleted := false } ∧
        (HandleFinish finishEnv stoppedClient).2.BrkManager.TempAddressAbsolute =
          addrA.Absolute ∧
        (HandleFinish finishEnv stoppedClient).2.BrkManager.TempBreakTid =
          stoppedClient.Process.WorkTid) :=
  ⟨rfl, by decide, by decide,
    ((HandleFinish_sets_temporary finishEnv stoppedClient).2.2 addrA rfl (by decide)).2.2.2.1
      (by decide)⟩

/-! ## Address parsing -/

/-- C12 (counterexample): the token `0x5000000000` evaluates to exactly the
threshold, yet `ParseUserAddressToAbsolute` does not return it: it resolves it
as the offset `0x5000000000` in the default library (here to `0xC000000000`);
and `ParseUserAddress` returns that library-relative address with no absolute
part instead of the reverse lookup. -/
theorem threshold_value_is_relative :
    parseEnv.GetExprValue "0x5000000000" stoppedProcess.Context = Except.ok 0x5000000000 ∧
      0x5000000000 ≥ absoluteThreshold ∧
      ParseUserAddressToAbsolute parseEnv libfoo stoppedProcess "0x5000000000" =
        Except.ok 0xC000000000 ∧
      ParseUserAddress parseEnv libfoo stoppedProcess "0x5000000000" =
        Except.ok { LibInfo := libfoo, Offset := 0x5000000000, Absolute := 0 } :=
  ⟨rfl, by decide, rfl, rfl⟩

/-- C12 (amended): for a token the evaluator evaluates to `v`: when
`v > 0x5000000000`, `ParseUserAddressToAbsolute` returns `v` itself and
`ParseUserAddress` returns the reverse lookup `Process.ParseAddress v` (its
error wrapped as a bad address); when `v ≤ 0x5000000000`, the threshold itself
included, `v` is an offset in the default library: `ParseUserAddressToAbsolute`
returns what `GetAbsoluteAddress` gives for it and `ParseUserAddress` returns the
library-relative address. -/
theorem evaluated_token (env : ParseEnv) (Library : LibraryInfo) (p : Process)
    (arg : String) (v : Nat) (h : env.GetExprValue arg p.Context = Except.ok v) :
    (v > 0x5000000000 →
        ParseUserAddressToAbsolute env Library p arg = Except.ok v ∧
        ParseUserAddress env Library p arg =
          (match env.ParseAddress v with
            | Except.error e => Except.error (ParseError.BadAddress e)
            | Except.ok address => Except.ok address)) ∧
      (v ≤ 0x5000000000 →
        ParseUserAddressToAbsolute env Library p arg =
          (match env.GetAbsoluteAddress (NewAddress Library v) with
            | Except.error e => Except.error (ParseError.Plain e)
            | Except.ok absolute => Except.ok absolute) ∧
        ParseUserAddress env Library p arg = Except.ok (NewAddress Library v)) := by
  constructor
  · intro hv
    have hgt : v > absoluteThreshold := hv
    unfold ParseUserAddressToAbsolute ParseUserAddress
    rw [h]
    dsimp only
    rw [if_pos hgt, if_pos hgt]
    exact ⟨rfl, rfl⟩
  · intro hv
    have hle : ¬ v > absoluteThreshold := Nat.not_lt.2 hv
    unfold ParseUserAddressToAbsolute ParseUserAddress
    rw [h]
    dsimp only
    rw [if_neg hle, if_neg hle]
    exact ⟨rfl, rfl⟩

/-- The token `0x7000001238` lies above the threshold: it is returned as it is,
and reverse lookup gives `libfoo.so+0x1238`. -/
theorem evaluated_token_witness :
    parseEnv.GetExprValue "0x7000001238" stoppedProcess.Context = Except.ok 0x7000001238 ∧
      0x7000001238 > 0x5000000000 ∧
      ParseUserAddressToAbsolute parseEnv libfoo stoppedProcess "0x7000001238" =
        Except.ok 0x7000001238 ∧
      ParseUserAddress parseEnv libfoo stoppedProcess "0x7000001238" =
        (match parseEnv.ParseAddress 0x7000001238 with
          | Except.error e => Except.error (ParseError.BadAddress e)
          | Except.ok address => Except.ok address) :=
  ⟨rfl, by decide,
    (evaluated_token parseEnv libfoo stoppedProcess "0x7000001238" 0x7000001238 rfl).1
      (by decide)⟩

theorem lastIndexIn_absent (c : Char) (N : List Char) (h : c ∉ N) : lastIndexIn c N = -1 := by
  induction N with
  | nil => rfl
  | cons x rest ih =>
    have hx : ¬ x = c := fun hxc => h (by rw [hxc]; exact List.mem_cons_self _ _)
    have hr : c ∉ rest := fun hr => h (List.mem_cons_of_mem _ hr)
    simp [lastIndexIn, ih hr, hx]

theorem lastIndexIn_split (c : Char) (L N : List Char) (h : c ∉ N) :
    lastIndexIn c (L ++ c :: N) = (L.length : Int) := by
  induction L with
  | nil => simp [lastIndexIn, lastIndexIn_absent c N h]
  | cons x rest ih =>
    have hnn : (rest.length : Int) ≥ 0 := Int.ofNat_nonneg _
    have hstep : lastIndexIn c (x :: (rest ++ c :: N)) =
        (if lastIndexIn c (rest ++ c :: N) ≥ 0 then lastIndexIn c (rest ++ c :: N) + 1
          else if x = c then 0 else -1) := rfl
    rw [List.cons_append, hstep, ih, if_pos hnn, List.length_cons]
    push_cast
    rfl

theorem split_at_last_plus (L N : List Char) (h : '+' ∉ N) :
    containsPlus (String.mk (L ++ '+' :: N)) = true ∧
      sliceBefore (String.mk (L ++ '+' :: N)) (LastIndex (String.mk (L ++ '+' :: N))) =
        String.mk L ∧
      sliceAfter (String.mk (L ++ '+' :: N)) (LastIndex (String.mk (L ++ '+' :: N))) =
        String.mk N := by
  have hi : LastIndex (String.mk (L ++ '+' :: N)) = (L.length : Int) := by
    unfold LastIndex
    exact lastIndexIn_split '+' L N h
  refine ⟨?_, ?_, ?_⟩
  · simp [containsPlus]
  · rw [hi]
    simp [sliceBefore]
  · rw [hi]
    simp [sliceAfter]

theorem wrap_instruction_offset (PC n : Nat) :
    (PC + (n * 4) % 2 ^ 64) % 2 ^ 64 = (PC + 4 * n) % 2 ^ 64 := by
  norm_num
  omega

/-- C13: a token `L+N` (with no `+` in `N`, so that this `+` is its last) that
the evaluator rejects is split into the library name `L` and the offset text
`N`, whatever `L` is, further `+` signs included. When `N` is not a valid
unsigned number both parsers fail with a bad-address error. When `N` is the
number `n` and `L` is `$`, `ParseUserAddressToAbsolute` returns `PC + 4 * n`
modulo `2 ^ 64` and `ParseUserAddress` returns `Process.ParseAddress` of that
value (its error wrapped as a bad address). When `N` is the number `n` and `L`
is not `$`, both parsers look up the library named `L`, all of `L`, and use `n`
as the offset in it: `ParseUserAddress` returns the address `(L, n)` and
`ParseUserAddressToAbsolute` its absolute value, an error of the library lookup
being handed on. -/
theorem plus_token (env : ParseEnv) (Library : LibraryInfo) (p : Process)
    (L N : List Char) (err : Error) (hN : '+' ∉ N)
    (hrej : env.GetExprValue (String.mk (L ++ '+' :: N)) p.Context = Except.error err) :
    (sliceBefore (String.mk (L ++ '+' :: N)) (LastIndex (String.mk (L ++ '+' :: N))) =
        String.mk L ∧
      sliceAfter (String.mk (L ++ '+' :: N)) (LastIndex (String.mk (L ++ '+' :: N))) =
        String.mk N) ∧
      (∀ e : Error, env.ParseUint (String.mk N) = Except.error e →
        ParseUserAddressToAbsolute env Library p (String.mk (L ++ '+' :: N)) =
            Except.error (ParseError.BadAddress e) ∧
          ParseUserAddress env Library p (String.mk (L ++ '+' :: N)) =
            Except.error (ParseError.BadAddress e)) ∧
      (∀ n : Nat, env.ParseUint (String.mk N) = Except.ok n → L = ['$'] →
        ParseUserAddressToAbsolute env Library p (String.mk (L ++ '+' :: N)) =
            Except.ok ((p.Context.PC + 4 * n) % 2 ^ 64) ∧
          ParseUserAddress env Library p (String.mk (L ++ '+' :: N)) =
            (match env.ParseAddress ((p.Context.PC + 4 * n) % 2 ^ 64) with
              | Except.error e => Except.error (ParseError.BadAddress e)
              | Except.ok address => Except.ok address)) ∧
      (∀ n : Nat, env.ParseUint (String.mk N) = Except.ok n → L ≠ ['$'] →
        ParseUserAddressToAbsolute env Library p (String.mk (L ++ '+' :: N)) =
            (match env.CreateLibrary p (String.mk L) with
              | Except.error e => Except.error (ParseError.Plain e)
              | Except.ok libInfo =>
                match env.GetAbsoluteAddress
                    { LibInfo := libInfo, Offset := n, Absolute := 0 } with
                | Except.error e => Except.error (ParseError.Plain e)
                | Except.ok absolute => Except.ok absolute) ∧
          ParseUserAddress env Library p (String.mk (L ++ '+' :: N)) =
            (match env.CreateLibrary p (String.mk L) with
              | Except.error e => Except.error (ParseError.Plain e)
              | Except.ok libInfo =>
                Except.ok { LibInfo := libInfo, Offset := n, Absolute := 0 })) := by
  obtain ⟨hc, hb, ha⟩ := split_at_last_plus L N hN
  refine ⟨⟨hb, ha⟩, ?_, ?_, ?_⟩
  · intro e he
    constructor
    · unfold ParseUserAddressToAbsolute
      rw [hrej]
      dsimp only
      rw [if_pos hc, ha, he]
    · unfold ParseUserAddress
      rw [hrej]
      dsimp only
      rw [if_pos hc, ha, he]
  · intro n hn hL
    have hd : String.mk L = "$" := by rw [hL]
    constructor
    · unfold ParseUserAddressToAbsolute
      rw [hrej]
      dsimp only
      rw [if_pos hc, ha, hb, hn]
      dsimp only
      rw [if_pos hd, wrap_instruction_offset]
    · unfold ParseUserAddress
      rw [hrej]
      dsimp only
      rw [if_pos hc, ha, hb, hn]
      dsimp only
      rw [if_pos hd, wrap_instruction_offset]
  · intro n hn hL
    have hd : ¬ String.mk L = "$" := by
      intro hs
      apply hL
      have hdata : (String.mk L).data = ("$" : String).data := by rw [hs]
      exact hdata
    constructor
    · unfold ParseUserAddressToAbsolute
      rw [hrej]
      dsimp only
      rw [if_pos hc, ha, hb, hn]
      dsimp only
      rw [if_neg hd]
      rfl
    · unfold ParseUserAddress
      rw [hrej]
      dsimp only
      rw [if_pos hc, ha, hb, hn]
      dsimp only
      rw [if_neg hd]
      rfl

/-- The token `$+1` at `PC = 0x7000001234`: one instruction further, at
`0x7000001238`, which is `libfoo.so+0x1238`. The token `lib+x.so+4660`, with two
`+` signs: the library is `lib+x.so` and the offset 4660. The token
`lib+x.so+zz`: a bad offset. -/
theorem plus_token_witness :
    parseEnv.GetExprValue (String.mk (['$'] ++ '+' :: ['1'])) stoppedProcess.Context =
        Except.error (Error.External 2) ∧
      ParseUserAddressToAbsolute parseEnv libfoo stoppedProcess "$+1" =
        Except.ok 0x7000001238 ∧
      ParseUserAddress parseEnv libfoo stoppedProcess "$+1" = Except.ok addrB ∧
      (ParseUserAddressToAbsolute parseEnv libfoo stoppedProcess
            (String.mk (['$'] ++ '+' :: ['1'])) =
          Except.ok ((stoppedProcess.Context.PC + 4 * 1) % 2 ^ 64) ∧
        ParseUserAddress parseEnv libfoo stoppedProcess (String.mk (['$'] ++ '+' :: ['1'])) =
          (match parseEnv.ParseAddress ((stoppedProcess.Context.PC + 4 * 1) % 2 ^ 64) with
            | Except.error e => Except.error (ParseError.BadAddress e)
            | Except.ok address => Except.ok address)) ∧
      String.mk ("lib+x.so".data ++ '+' :: "4660".data) = "lib+x.so+4660" ∧
      ParseUserAddress parseEnv libfoo stoppedProcess "lib+x.so+4660" =
        Except.ok { LibInfo := { LibName := "lib+x.so" }, Offset := 4660, Absolute := 0 } ∧
      ParseUserAddressToAbsolute parseEnv libfoo stoppedProcess "lib+x.so+4660" =
        Except.ok (0x7000000000 + 4660) ∧
      (ParseUserAddressToAbsolute parseEnv libfoo stoppedProcess
            (String.mk ("lib+x.so".data ++ '+' :: "4660".data)) =
          (match parseEnv.CreateLibrary stoppedProcess (String.mk "lib+x.so".data) with
            | Except.error e => Except.error (ParseError.Plain e)
            | Except.ok libInfo =>
              match parseEnv.GetAbsoluteAddress
                  { LibInfo := libInfo, Offset := 4660, Absolute := 0 } with
              | Except.error e => Except.error (ParseError.Plain e)
              | Except.ok absolute => Except.ok absolute) ∧
        ParseUserAddress parseEnv libfoo stoppedProcess
            (String.mk ("lib+x.so".data ++ '+' :: "4660".data)) =
          (match parseEnv.CreateLibrary stoppedProcess (String.mk "lib+x.so".data) with
            | Except.error e => Except.error (ParseError.Plain e)
            | Except.ok libInfo =>
              Except.ok { LibInfo := libInfo, Offset := 4660, Absolute := 0 })) ∧
      (ParseUserAddressToAbsolute parseEnv libfoo stoppedProcess
            (String.mk ("lib+x.so".data ++ '+' :: "zz".data)) =
          Except.error (ParseError.BadAddress (Error.External 3)) ∧
        ParseUserAddress parseEnv libfoo stoppedProcess
            (String.mk ("lib+x.so".data ++ '+' :: "zz".data)) =
          Except.error (ParseError.BadAddress (Error.External 3))) :=
  ⟨rfl, rfl, rfl,
    (plus_token parseEnv libfoo stoppedProcess ['$'] ['1'] (Error.External 2) (by decide)
      rfl).2.2.1 1 rfl rfl,
    rfl, rfl, rfl,
    (plus_token parseEnv libfoo stoppedProcess "lib+x.so".data "4660".data (Error.External 2)
      (by decide) rfl).2.2.2 4660 rfl (by decide),
    (plus_token parseEnv libfoo stoppedProcess "lib+x.so".data "zz".data (Error.External 2)
      (by decide) rfl).2.1 (Error.External 3) rfl⟩

/-! ## The fan-out of `SIGCONT` -/

theorem continueLoop_all_ok (kill : Nat → Option Errno) (l : List Nat)
    (h : ∀ pid ∈ l, kill pid = none) : continueLoop kill l = (l, none) := by
  induction l with
  | nil => rfl
  | cons pid rest ih =>
    have hp : kill pid = none := h pid (List.mem_cons_self _ _)
    have hr : continueLoop kill rest = (rest, none) :=
      ih (fun q hq => h q (List.mem_cons_of_mem _ hq))
    simp [continueLoop, hp, hr]

theorem continueLoop_first_failure (kill : Nat → Option Errno) (pre : List Nat) (pid : Nat)
    (post : List Nat) (e : Errno) (hpre : ∀ q ∈ pre, kill q = none) (hpid : kill pid = some e) :
    continueLoop kill (pre ++ pid :: post) =
      (pre ++ [pid],
        some (if e = Errno.ESRCH then SignalError.NoSuchProcess pid
          else SignalError.ContinueError pid)) := by
  induction pre with
  | nil =>
    by_cases he : e = Errno.ESRCH <;> simp [continueLoop, hpid, he]
  | cons q rest ih =>
    have hq : kill q = none := hpre q (List.mem_cons_self _ _)
    have hr := ih (fun r hr => hpre r (List.mem_cons_of_mem _ hr))
    simp [continueLoop, hq, hr]

theorem continueLoop_prefix (kill : Nat → Option Errno) (l : List Nat) :
    (continueLoop kill l).1 <+: l := by
  induction l with
  | nil => exact List.prefix_refl _
  | cons pid rest ih =>
    cases hp : kill pid with
    | none =>
      simp only [continueLoop, hp]
      exact (List.prefix_cons_inj pid).2 ih
    | some e =>
      have h1 : (continueLoop kill (pid :: rest)).1 = [pid] := by
        by_cases he : e = Errno.ESRCH <;> simp [continueLoop, hp, he]
      rw [h1]
      exact ⟨rest, rfl⟩

/-- C15 (counterexample): the scan returns the PIDs 100 and 101 and delivery to
100 fails with `ESRCH`. `Process.Continue` returns its error after the attempt
on 100: `SIGCONT` is never attempted on 101, the stopped list is not cleared,
and `CleanUp` signals PID 100 only before it stops the probes and ends. -/
theorem Continue_stops_at_first_failure :
    Continue [100, 101] killGone100 { PidList := [], StoppedPid := [100, 101] } =
        ({ PidList := [100, 101], StoppedPid := [100, 101] }, [100],
          some (SignalError.NoSuchProcess 100)) ∧
      101 ∉ (Continue [100, 101] killGone100 { PidList := [], StoppedPid := [100, 101] }).2.1 ∧
      killGone100 101 = none ∧
      CleanUp [100, 101] killGone100 { PidList := [], StoppedPid := [100, 101] } =
        [CleanUpStep.SIGCONT 100, CleanUpStep.StopProbes, CleanUpStep.SIGTERMSelf] :=
  ⟨rfl, by decide, rfl, rfl⟩

/-- C15 (amended): `Process.Continue` attempts `SIGCONT` on the PIDs of the
freshly scanned list in order and stops at the first PID whose delivery fails:
the PIDs signalled are always a prefix of the list; when every delivery
succeeds they are the whole list, no error is returned and the stopped list is
emptied; when delivery first fails at a PID, the PIDs signalled are those up to
and including it, the error names that PID (no such process for `ESRCH`), and
the stopped list is kept. `CleanUp` performs exactly that fan-out, then stops
the probes and terminates the debugger. -/
theorem Continue_fan_out (scan : List Nat) (kill : Nat → Option Errno) (p : PidState) :
    (Continue scan kill p).2.1 <+: scan ∧
      (Continue scan kill p).1.PidList = scan ∧
      ((∀ pid ∈ scan, kill pid = none) →
        Continue scan kill p = ({ PidList := scan, StoppedPid := [] }, scan, none)) ∧
      (∀ (pre : List Nat) (pid : Nat) (post : List Nat) (e : Errno),
        scan = pre ++ pid :: post → (∀ q ∈ pre, kill q = none) → kill pid = some e →
        Continue scan kill p =
          ({ PidList := scan, StoppedPid := p.StoppedPid }, pre ++ [pid],
            some (if e = Errno.ESRCH then SignalError.NoSuchProcess pid
              else SignalError.ContinueError pid))) ∧
      CleanUp scan kill p =
        (Continue scan kill p).2.1.map CleanUpStep.SIGCONT ++
          [CleanUpStep.StopProbes, CleanUpStep.SIGTERMSelf] := by
  refine ⟨?_, ?_, ?_, ?_, rfl⟩
  · have hp := continueLoop_prefix kill scan
    unfold Continue
    dsimp only
    split
    · rename_i att err heq
      rw [heq] at hp
      exact hp
    · rename_i att heq
      rw [heq] at hp
      exact hp
  · unfold Continue
    dsimp only
    split <;> rfl
  · intro h
    unfold Continue
    dsimp only
    rw [continueLoop_all_ok kill scan h]
  · intro pre pid post e hs hpre hpid
    unfold Continue
    dsimp only
    rw [hs, continueLoop_first_failure kill pre pid post e hpre hpid]

/-- With the PIDs 101 and 102, to both of which delivery succeeds, both are
signalled and the stopped list is emptied; with 100 failing first, the fan-out
ends there. -/
theorem Continue_fan_out_witness :
    (∀ pid ∈ [101, 102], killOk pid = none) ∧
      Continue [101, 102] killOk { PidList := [], StoppedPid := [101, 102] } =
        ({ PidList := [101, 102], StoppedPid := [] }, [101, 102], none) ∧
      Continue [101, 100, 102] killGone100 { PidList := [], StoppedPid := [101] } =
        ({ PidList := [101, 100, 102], StoppedPid := [101] }, [101] ++ [100],
          some (if Errno.ESRCH = Errno.ESRCH then SignalError.NoSuchProcess 100
            else SignalError.ContinueError 100)) :=
  ⟨by decide,
    (Continue_fan_out [101, 102] killOk { PidList := [], StoppedPid := [101, 102] }).2.2.1
      (by decide),
    (Continue_fan_out [101, 100, 102] killGone100
      { PidList := [], StoppedPid := [101] }).2.2.2.1 [101] 100 [102] Errno.ESRCH rfl
      (by decide) rfl⟩

end eDBG
